import Mathlib

/-!
Verification of the compositing engine of JessiCa-SON (`src/compose.py`).

The development shallowly embeds the engine: Python dicts become
insertion-ordered association lists, Python ints become `Int`, JSON values
become the inductive `JVal`, and the diagnostic channel (log_and_emit)
becomes an append-only list of `Diag` records threaded through the state.
Python string operations are modelled on `String.data` (lists of chars),
because code-point-wise lexicographic comparison is exactly what Python
`sorted` uses on `str`.  `sorted` itself (a stable ascending sort) is
modelled by `List.insertionSort`, which is stable.

Purely informational progress events (STATUS_MESSAGE/LOADING/PROGRESS) that
carry no engine state are not modelled except where a claim depends on them
(the terminal FINISHED event of an aborted run is modelled for the
cancellation claim).
-/

set_option maxHeartbeats 1000000
set_option maxRecDepth 10000

namespace ComposePy

/-! ## Python `pathlib` name helpers, modelled on CPython

`Path.suffixes`: if the final name ends with a dot the result is empty;
otherwise leading dots are stripped and the name is split on dots, every
piece after the first becoming a `"." ++ piece` suffix.
`Path.stem`: the name with its final suffix (if any) removed. -/

def pySuffixes (name : String) : List String :=
  if name.data.getLast? = some '.' then []
  else
    let stripped := name.data.dropWhile (fun c => c = '.')
    ((stripped.splitOn '.').tail).map (fun cs => String.mk ('.' :: cs))

def pyStem (name : String) : String :=
  match (pySuffixes name).getLast? with
  | some suf => String.mk (name.data.take (name.data.length - suf.data.length))
  | none => name

/-! ## Diagnostics channel (`log_and_emit` / `emit`)

Mirrors `ComposeSignalType` and `MessageType` from `compose.py` together
with the `logging` level used at each call site. -/

inductive LogLevel where
  | info | warning | error | critical
deriving DecidableEq

inductive SigType where
  | progressPercent | progressPngnum | progressImage | statusMessage
  | loading | composing | finished | warningMessage | errorMessage
  | criticalMessage
deriving DecidableEq

inductive MsgType where
  | critGeneric | critErrorLoadingJson
  | errPngNotFound | errSpriteSize | errDuplicateName | errDuplicateId
  | errNotUsed | errVips
  | warnSpriteUnref | warnNoFormatter | warnNotMentioned | warnEmptyEntry
  | warnFillerSkip | warnFillerDuplicate | warnFillerUnused
deriving DecidableEq

/-! ## JSON values

Python objects loaded by `json.load` and produced by the converter.  A
JSON number that is not an integer is carried as its literal token
(`JVal.num`): the engine never does arithmetic on these values, it only
passes them through to the output document and compares their `str()`
rendering (`Tilesheet.is_standard`). -/

inductive JVal where
  | s (v : String)
  | i (v : Int)
  | num (v : String)
  | b (v : Bool)
  | null
  | arr (xs : List JVal)
  | obj (kvs : List (String × JVal))

mutual

def jvalDecEq : (a b : JVal) → Decidable (a = b)
  | .s x, .s y =>
    match String.decEq x y with
    | isTrue h => isTrue (by rw [h])
    | isFalse h => isFalse (fun hh => by cases hh; exact h rfl)
  | .i x, .i y =>
    match Int.decEq x y with
    | isTrue h => isTrue (by rw [h])
    | isFalse h => isFalse (fun hh => by cases hh; exact h rfl)
  | .num x, .num y =>
    match String.decEq x y with
    | isTrue h => isTrue (by rw [h])
    | isFalse h => isFalse (fun hh => by cases hh; exact h rfl)
  | .b x, .b y =>
    match Bool.decEq x y with
    | isTrue h => isTrue (by rw [h])
    | isFalse h => isFalse (fun hh => by cases hh; exact h rfl)
  | .null, .null => isTrue rfl
  | .arr xs, .arr ys =>
    match jvalDecEqList xs ys with
    | isTrue h => isTrue (by rw [h])
    | isFalse h => isFalse (fun hh => by cases hh; exact h rfl)
  | .obj xs, .obj ys =>
    match jvalDecEqObj xs ys with
    | isTrue h => isTrue (by rw [h])
    | isFalse h => isFalse (fun hh => by cases hh; exact h rfl)
  | .s _, .i _ => isFalse (fun h => nomatch h)
  | .s _, .num _ => isFalse (fun h => nomatch h)
  | .s _, .b _ => isFalse (fun h => nomatch h)
  | .s _, .null => isFalse (fun h => nomatch h)
  | .s _, .arr _ => isFalse (fun h => nomatch h)
  | .s _, .obj _ => isFalse (fun h => nomatch h)
  | .i _, .s _ => isFalse (fun h => nomatch h)
  | .i _, .num _ => isFalse (fun h => nomatch h)
  | .i _, .b _ => isFalse (fun h => nomatch h)
  | .i _, .null => isFalse (fun h => nomatch h)
  | .i _, .arr _ => isFalse (fun h => nomatch h)
  | .i _, .obj _ => isFalse (fun h => nomatch h)
  | .num _, .s _ => isFalse (fun h => nomatch h)
  | .num _, .i _ => isFalse (fun h => nomatch h)
  | .num _, .b _ => isFalse (fun h => nomatch h)
  | .num _, .null => isFalse (fun h => nomatch h)
  | .num _, .arr _ => isFalse (fun h => nomatch h)
  | .num _, .obj _ => isFalse (fun h => nomatch h)
  | .b _, .s _ => isFalse (fun h => nomatch h)
  | .b _, .i _ => isFalse (fun h => nomatch h)
  | .b _, .num _ => isFalse (fun h => nomatch h)
  | .b _, .null => isFalse (fun h => nomatch h)
  | .b _, .arr _ => isFalse (fun h => nomatch h)
  | .b _, .obj _ => isFalse (fun h => nomatch h)
  | .null, .s _ => isFalse (fun h => nomatch h)
  | .null, .i _ => isFalse (fun h => nomatch h)
  | .null, .num _ => isFalse (fun h => nomatch h)
  | .null, .b _ => isFalse (fun h => nomatch h)
  | .null, .arr _ => isFalse (fun h => nomatch h)
  | .null, .obj _ => isFalse (fun h => nomatch h)
  | .arr _, .s _ => isFalse (fun h => nomatch h)
  | .arr _, .i _ => isFalse (fun h => nomatch h)
  | .arr _, .num _ => isFalse (fun h => nomatch h)
  | .arr _, .b _ => isFalse (fun h => nomatch h)
  | .arr _, .null => isFalse (fun h => nomatch h)
  | .arr _, .obj _ => isFalse (fun h => nomatch h)
  | .obj _, .s _ => isFalse (fun h => nomatch h)
  | .obj _, .i _ => isFalse (fun h => nomatch h)
  | .obj _, .num _ => isFalse (fun h => nomatch h)
  | .obj _, .b _ => isFalse (fun h => nomatch h)
  | .obj _, .null => isFalse (fun h => nomatch h)
  | .obj _, .arr _ => isFalse (fun h => nomatch h)

def jvalDecEqList : (a b : List JVal) → Decidable (a = b)
  | [], [] => isTrue rfl
  | [], _ :: _ => isFalse (fun h => nomatch h)
  | _ :: _, [] => isFalse (fun h => nomatch h)
  | x :: xs, y :: ys =>
    match jvalDecEq x y with
    | isFalse h1 => isFalse (fun h => by cases h; exact h1 rfl)
    | isTrue h1 =>
      match jvalDecEqList xs ys with
      | isTrue h2 => isTrue (by rw [h1, h2])
      | isFalse h2 => isFalse (fun h => by cases h; exact h2 rfl)

def jvalDecEqObj : (a b : List (String × JVal)) → Decidable (a = b)
  | [], [] => isTrue rfl
  | [], _ :: _ => isFalse (fun h => nomatch h)
  | _ :: _, [] => isFalse (fun h => nomatch h)
  | (k1, v1) :: xs, (k2, v2) :: ys =>
    match String.decEq k1 k2 with
    | isFalse h1 => isFalse (fun h => by cases h; exact h1 rfl)
    | isTrue h1 =>
      match jvalDecEq v1 v2 with
      | isFalse h2 => isFalse (fun h => by cases h; exact h2 rfl)
      | isTrue h2 =>
        match jvalDecEqObj xs ys with
        | isTrue h3 => isTrue (by rw [h1, h2, h3])
        | isFalse h3 => isFalse (fun h => by cases h; exact h3 rfl)

end

instance : DecidableEq JVal := jvalDecEq

structure Diag where
  level : LogLevel
  sigType : SigType
  message : String
  args : List JVal
  msgType : Option MsgType
deriving DecidableEq

/-- Python truthiness of the modelled JSON values (`if value:`).  For a
non-integer number literal we regard the canonical zero spellings as
falsy; the engine only ever truth-tests offsets and layer values, which are
integers or strings in practice. -/
def jTruthy : JVal → Bool
  | .s v => v ≠ ""
  | .i n => n ≠ 0
  | .num v => v ≠ "0" ∧ v ≠ "0.0"
  | .b v => v
  | .null => false
  | .arr xs => !xs.isEmpty
  | .obj kvs => !kvs.isEmpty

/-- Truthiness of `entry.get(key)` results (`None` is falsy). -/
def jTruthyOpt : Option JVal → Bool
  | none => false
  | some v => jTruthy v

/-- A single quote character, used by the `repr`-style rendering below. -/
def squote : String := String.mk [Char.ofNat 39]

mutual

/-- Python `repr()` of the modelled values (used by `str()` on lists). -/
def pyRepr : JVal → String
  | .s v => squote ++ v ++ squote
  | .i n => toString n
  | .num v => v
  | .b true => "True"
  | .b false => "False"
  | .null => "None"
  | .arr xs => "[" ++ pyReprList xs ++ "]"
  | .obj kvs => "\x7b" ++ pyReprObj kvs ++ "\x7d"

def pyReprList : List JVal → String
  | [] => ""
  | [x] => pyRepr x
  | x :: xs => pyRepr x ++ ", " ++ pyReprList xs

def pyReprObj : List (String × JVal) → String
  | [] => ""
  | [kv] => squote ++ kv.1 ++ squote ++ ": " ++ pyRepr kv.2
  | kv :: kvs => squote ++ kv.1 ++ squote ++ ": " ++ pyRepr kv.2 ++ ", " ++ pyReprObj kvs

end

/-- Python `str()` / f-string interpolation of the modelled values. -/
def pyStr : JVal → String
  | .s v => v
  | .i n => toString n
  | .num v => v
  | .b true => "True"
  | .b false => "False"
  | .null => "None"
  | .arr xs => pyRepr (.arr xs)
  | .obj kvs => pyRepr (.obj kvs)

/-! ## `json.dump(..., ensure_ascii=False)` (write_to_json, format_json off)

Byte-for-byte serialization of the merged document.  Escaping covers the
short escapes json uses; other characters pass through unescaped because
`ensure_ascii` is disabled. -/

def jsonEscapeChar (c : Char) : String :=
  if c = '"' then "\\\""
  else if c = '\\' then "\\\\"
  else if c = '\n' then "\\n"
  else if c = '\t' then "\\t"
  else if c = '\r' then "\\r"
  else String.mk [c]

def jsonEscape (v : String) : String :=
  String.join (v.data.map jsonEscapeChar)

mutual

def renderJson : JVal → String
  | .s v => "\"" ++ jsonEscape v ++ "\""
  | .i n => toString n
  | .num v => v
  | .b true => "true"
  | .b false => "false"
  | .null => "null"
  | .arr xs => "[" ++ renderJsonList xs ++ "]"
  | .obj kvs => "\x7b" ++ renderJsonObj kvs ++ "\x7d"

def renderJsonList : List JVal → String
  | [] => ""
  | [x] => renderJson x
  | x :: xs => renderJson x ++ ", " ++ renderJsonList xs

def renderJsonObj : List (String × JVal) → String
  | [] => ""
  | [kv] => "\"" ++ jsonEscape kv.1 ++ "\": " ++ renderJson kv.2
  | kv :: kvs => "\"" ++ jsonEscape kv.1 ++ "\": " ++ renderJson kv.2 ++ ", " ++ renderJsonObj kvs

end

/-! ## Python dict operations on insertion-ordered association lists

Keys of the dicts the engine builds are unique (guarded insertions), so an
insertion-ordered association list with first-match lookup models them
exactly. `objSet` models `d[k] = v` (replace in place, else append at the
end); `objPop` models `d.pop(k, None)`. -/

def objGet (kvs : List (String × JVal)) (k : String) : Option JVal :=
  kvs.lookup k

def objSet : List (String × JVal) → String → JVal → List (String × JVal)
  | [], k, v => [(k, v)]
  | (k0, v0) :: rest, k, v =>
    if k0 = k then (k0, v) :: rest else (k0, v0) :: objSet rest k v

def objPop : List (String × JVal) → String → List (String × JVal)
  | [], _ => []
  | (k0, v0) :: rest, k =>
    if k0 = k then rest else (k0, v0) :: objPop rest k

/-- `list_or_first`: strip the container list when it has exactly one
element (`compose.py`, `list_or_first`). -/
def list_or_first (xs : List JVal) : JVal :=
  match xs with
  | [x] => x
  | _ => .arr xs

/-! ## Registry state (the mutable part of `Tileset`)

`pngnum`, `pngname_to_pngnum`, `unreferenced_pngnames` (keyed main/filler)
and `processed_ids`, plus the append-only diagnostics stream. -/

structure TilesetSt where
  pngnum : Int
  pngname_to_pngnum : List (String × Int)
  unreferenced_main : List String
  unreferenced_filler : List String
  processed_ids : List String
  diags : List Diag
deriving DecidableEq

/-- The registry as `Tileset.__init__` leaves it: index 0 pre-assigned to
the synthetic placeholder name `null_image`, counters at zero. -/
def initialTilesetSt : TilesetSt :=
  { pngnum := 0
  , pngname_to_pngnum := [("null_image", 0)]
  , unreferenced_main := []
  , unreferenced_filler := []
  , processed_ids := []
  , diags := [] }

def emitD (st : TilesetSt) (d : Diag) : TilesetSt :=
  { st with diags := st.diags ++ [d] }

/-- Full path string of a file discovered at directory `dir`. -/
def pathStr (dir f : String) : String := dir ++ "/" ++ f

/-- `Tilesheet.process_png_filename`: register a sprite file under the
stem of its name.  A stem already present in the map is a duplicate: the
map and the counter are left untouched and a diagnostic is emitted (error
for non-filler sheets; suppressible warning for filler sheets).  A fresh
stem advances `pngnum`, stores the mapping and appends the stem to the
unreferenced list of the sheet category. -/
def process_png_filename (obsolete_fillers is_filler : Bool)
    (st : TilesetSt) (dir f : String) : TilesetSt :=
  let stem := pyStem f
  match st.pngname_to_pngnum.lookup stem with
  | some _ =>
    let st1 :=
      if ¬ is_filler then
        emitD st
          { level := .error, sigType := .errorMessage
          , message := "Duplicate root name for ID \x7b\x7d: \x7b\x7d."
          , args := [.s stem, .s (pathStr dir f)]
          , msgType := some .errDuplicateName }
      else st
    if is_filler ∧ obsolete_fillers then
      emitD st1
        { level := .warning, sigType := .warningMessage
        , message := "Root name \x7b\x7d is already present in a non-filler sheet: \x7b\x7d"
        , args := [.s stem, .s (pathStr dir f)]
        , msgType := some .warnFillerDuplicate }
    else st1
  | none =>
    { st with
      pngnum := st.pngnum + 1
    , pngname_to_pngnum := st.pngname_to_pngnum ++ [(stem, st.pngnum + 1)]
    , unreferenced_main :=
        if is_filler then st.unreferenced_main else st.unreferenced_main ++ [stem]
    , unreferenced_filler :=
        if is_filler then st.unreferenced_filler ++ [stem] else st.unreferenced_filler }

/-! ## Tile entry conversion (`TileEntry`) -/

/-- The per-entry conversion context: the owning sheet category, the
suppression flag, the fragment path the entry came from and the output
configuration file name (used in diagnostics). -/
structure ConvCtx where
  is_filler : Bool
  obsolete_fillers : Bool
  filepath : String
  output_conf_file : String
deriving DecidableEq

/-- The "file was not found" error of `TileEntry.append_sprite_index`
(non-fatal; the reference is simply omitted).  The name is reassigned to
`f"{sprite_name}.png"` before being used twice in the arguments. -/
def png_not_found_diag (cx : ConvCtx) (sprite_name : JVal) : Diag :=
  { level := .error, sigType := .errorMessage
  , message := "\x7b\x7d file for \x7b\x7d value from \x7b\x7d was not found. It will not be added to \x7b\x7d"
  , args := [.s (pyStr sprite_name ++ ".png"), .s (pyStr sprite_name ++ ".png")
            , .s cx.filepath, .s cx.output_conf_file]
  , msgType := some .errPngNotFound }

/-- `TileEntry.append_sprite_index`: resolve a sprite name through
`pngname_to_pngnum` (missing names default to index 0, which is falsy);
on success remove the name from the unreferenced list of the *referencing*
sheet category (a `ValueError` from `remove` is suppressed, modelled by
`List.erase` being a no-op on absent elements) and append the index to the
output list; on failure emit the PNG-not-found error and append nothing. -/
def append_sprite_index (cx : ConvCtx) (st : TilesetSt)
    (sprite_name : JVal) (entry : List JVal) : List JVal × Bool × TilesetSt :=
  if jTruthy sprite_name then
    let sprite_index : Int :=
      match sprite_name with
      | .s n => (st.pngname_to_pngnum.lookup n).getD 0
      | _ => 0
    if sprite_index ≠ 0 then
      let st1 :=
        match sprite_name with
        | .s n =>
          if cx.is_filler then
            { st with unreferenced_filler := st.unreferenced_filler.erase n }
          else
            { st with unreferenced_main := st.unreferenced_main.erase n }
        | _ => st
      (entry ++ [.i sprite_index], true, st1)
    else (entry, false, emitD st (png_not_found_diag cx sprite_name))
  else (entry, false, st)

/-- Loop of `TileEntry.convert_random_variations` over a list of
alternative sprite names, accumulating the validity flag. -/
def convert_variations_list (cx : ConvCtx) :
    TilesetSt → List JVal → List JVal → Bool → List JVal × Bool × TilesetSt
  | st, [], out, valid => (out, valid, st)
  | st, x :: xs, out, valid =>
    let r := append_sprite_index cx st x out
    convert_variations_list cx r.2.2 xs r.1 (valid || r.2.1)

/-- `TileEntry.convert_random_variations`. -/
def convert_random_variations (cx : ConvCtx) (st : TilesetSt)
    (sprite_names : JVal) : List JVal × Bool × TilesetSt :=
  match sprite_names with
  | .arr xs => convert_variations_list cx st xs [] false
  | v => append_sprite_index cx st v []

/-- Loop of `TileEntry.convert_entry_layer` over the elements of a list
layer: dict elements are weighted-variation wrappers kept only when at
least one alternative resolved, other elements resolve directly. -/
def convert_layer_list (cx : ConvCtx) :
    TilesetSt → List JVal → List JVal → List JVal × TilesetSt
  | st, [], out => (out, st)
  | st, .obj kvs :: rest, out =>
    let sn := (objGet kvs "sprite").getD .null
    let r := convert_random_variations cx st sn
    if r.2.1 then
      convert_layer_list cx r.2.2 rest
        (out ++ [.obj (objSet kvs "sprite" (list_or_first r.1))])
    else
      convert_layer_list cx r.2.2 rest out
  | st, v :: rest, out =>
    let r := append_sprite_index cx st v out
    convert_layer_list cx r.2.2 rest r.1

/-- `TileEntry.convert_entry_layer`. -/
def convert_entry_layer (cx : ConvCtx) (st : TilesetSt)
    (entry_layer : JVal) : List JVal × TilesetSt :=
  match entry_layer with
  | .arr parts => convert_layer_list cx st parts []
  | v =>
    let r := append_sprite_index cx st v []
    (r.1, r.2.2)

/-- The id de-duplication loop at the end of `TileEntry.convert`, with
Python `for` semantics made explicit: the loop keeps an internal cursor
`i` that advances every iteration even when the current element is
`remove`d from the list under iteration (so removal shifts the next
element under the cursor and it is skipped).  A fresh prefixed id is
appended to the global `processed_ids`; a colliding id is removed from
the entry id list and reported (error for non-filler sheets, suppressible
warning for filler sheets). -/
def dedup_ids_loop (cx : ConvCtx) :
    Nat → TilesetSt → List JVal → Nat → String → List JVal × TilesetSt
  | 0, st, ids, _, _ => (ids, st)
  | fuel + 1, st, ids, i, pfx =>
    if h : i < ids.length then
      let idv := ids.get ⟨i, h⟩
      let full_id := pfx ++ pyStr idv
      if full_id ∈ st.processed_ids then
        let ids2 := ids.erase idv
        let st1 :=
          if cx.is_filler then
            if cx.obsolete_fillers then
              emitD st
                { level := .warning, sigType := .warningMessage
                , message := "Skipping filler for \x7b\x7d from \x7b\x7d."
                , args := [.s full_id, .s cx.filepath]
                , msgType := some .warnFillerSkip }
            else st
          else
            emitD st
              { level := .error, sigType := .errorMessage
              , message := "ID \x7b\x7d encountered more than once, last time in \x7b\x7d."
              , args := [.s full_id, .s cx.filepath]
              , msgType := some .errDuplicateId }
        dedup_ids_loop cx fuel st1 ids2 (i + 1) pfx
      else
        dedup_ids_loop cx fuel
          { st with processed_ids := st.processed_ids ++ [full_id] } ids (i + 1) pfx
    else (ids, st)

/-- The loop terminates because the cursor advances every iteration while
the list never grows, so `ids.length - i` bounds the remaining
iterations; when the bound runs out the cursor is already past the end and
the loop result `(ids, st)` coincides with the exit branch. -/
def dedup_ids (cx : ConvCtx) (st : TilesetSt) (ids : List JVal) (i : Nat)
    (pfx : String) : List JVal × TilesetSt :=
  dedup_ids_loop cx (ids.length - i) st ids i pfx

mutual

/-- Depth of a JSON value; an upper bound on the nesting depth of
`additional_tiles`, used as recursion fuel for `convert`. -/
def jdepth : JVal → Nat
  | .arr xs => 1 + jdepthList xs
  | .obj kvs => 1 + jdepthObj kvs
  | _ => 0

def jdepthList : List JVal → Nat
  | [] => 0
  | x :: xs => max (jdepth x) (jdepthList xs)

def jdepthObj : List (String × JVal) → Nat
  | [] => 0
  | kv :: kvs => max (jdepth kv.2) (jdepthObj kvs)

end

/-- `TileEntry.convert`: recursively compile an input tile entry into the
game-compatible object, in place.  Returns the mutated entry, whether the
entry survived (`convert` returning the entry rather than `None`), and the
updated registry state.  The structural `fuel` argument bounds the
recursion into `additional_tiles`; `convertTop` supplies more than the
nesting depth of the input, so the 0 case is never reached from it.

Faithful in-place details: a truthy `fg`/`bg` value is replaced at its
key position by the converted value, a falsy one is popped; nested
additional entries are converted (and thereby mutated) with the parent
first id plus `"_"` as prefix, but their own survival result is discarded,
so a fully-duplicate additional entry stays in the list; the surviving id
list replaces the `id` value only when non-empty. -/
def convert (cx : ConvCtx) :
    Nat → TilesetSt → JVal → String → JVal × Bool × TilesetSt
  | 0, st, entry, _ => (entry, false, st)
  | fuel + 1, st, entry, pfx =>
    match entry with
    | .obj kvs =>
    let entry_ids := objGet kvs "id"
    let fg_layer := objGet kvs "fg"
    let bg_layer := objGet kvs "bg"
    if ¬ jTruthyOpt entry_ids ∨ (¬ jTruthyOpt fg_layer ∧ ¬ jTruthyOpt bg_layer) then
      let message :=
        if jTruthyOpt entry_ids then
          "Skipping empty entry in \x7b\x7d with IDs \x7b\x7d\x7b\x7d."
        else "Skipping empty entry in \x7b\x7d."
      (entry, false,
        emitD st
          { level := .warning, sigType := .warningMessage
          , message := message
          , args := [.s cx.filepath, .s pfx, entry_ids.getD .null]
          , msgType := some .warnEmptyEntry })
    else
      let ids : List JVal :=
        match entry_ids with
        | some (.arr xs) => xs
        | some v => [v]
        | none => []
      let r1 : List (String × JVal) × TilesetSt :=
        if jTruthyOpt fg_layer then
          let r := convert_entry_layer cx st (fg_layer.getD .null)
          (objSet kvs "fg" (list_or_first r.1), r.2)
        else (objPop kvs "fg", st)
      let r2 : List (String × JVal) × TilesetSt :=
        if jTruthyOpt bg_layer then
          let r := convert_entry_layer cx r1.2 (bg_layer.getD .null)
          (objSet r1.1 "bg" (list_or_first r.1), r.2)
        else (objPop r1.1 "bg", r1.2)
      let child_pfx := pyStr (ids.headD .null) ++ "_"
      let r3 : List (String × JVal) × TilesetSt :=
        match objGet r2.1 "additional_tiles" with
        | some (.arr adds) =>
          let rc := adds.foldl
            (fun (ac : List JVal × TilesetSt) e =>
              let r := convert cx fuel ac.2 e child_pfx
              (ac.1 ++ [r.1], r.2.2)) ([], r2.2)
          (objSet r2.1 "additional_tiles" (.arr rc.1), rc.2)
        | _ => (r2.1, r2.2)
      let r4 := dedup_ids cx r3.2 ids 0 pfx
      if r4.1 ≠ [] then
        (.obj (objSet r3.1 "id" (list_or_first r4.1)), true, r4.2)
      else (.obj r3.1, false, r4.2)
    | _ => (entry, false, st)

/-- `TileEntry.convert` as called by the pipeline on a freshly parsed
entry, with enough fuel for the nesting depth of the entry. -/
def convertTop (cx : ConvCtx) (st : TilesetSt) (entry : JVal) :
    JVal × Bool × TilesetSt :=
  convert cx (jdepth entry + 1) st entry ""

/-! ## `Tilesheet.walk_dirs`

The filtered `os.walk` output of the sheet subdirectory is modelled as a
list of `(directory path, file names)` pairs in arbitrary (platform
dependent) order; exclusion and `.scratch` pruning are part of producing
that listing.  The source sorts the walked triples by their first
component (the directory path) and each directory listing by file name —
Python `sorted`, a stable ascending sort by code-point order, modelled by
`List.insertionSort` over `String.data`.  A file joins `json_files` or
`png_files` only when its `Path.suffixes` is exactly the one recognized
suffix. -/

def fileLe (a b : String) : Prop := a.data ≤ b.data

instance : DecidableRel fileLe :=
  fun a b => inferInstanceAs (Decidable (a.data ≤ b.data))

instance : IsTotal String fileLe := ⟨fun a b => le_total a.data b.data⟩

instance : IsTrans String fileLe := ⟨fun _ _ _ h1 h2 => le_trans h1 h2⟩

def dirLe (a b : String × List String) : Prop := a.1.data ≤ b.1.data

instance : DecidableRel dirLe :=
  fun a b => inferInstanceAs (Decidable (a.1.data ≤ b.1.data))

instance : IsTotal (String × List String) dirLe :=
  ⟨fun a b => le_total a.1.data b.1.data⟩

instance : IsTrans (String × List String) dirLe :=
  ⟨fun _ _ _ h1 h2 => le_trans h1 h2⟩

structure SheetFiles where
  json_files : List (String × String)
  png_files : List (String × String)
deriving DecidableEq

/-- Inner loop of `walk_dirs`: classify the (already sorted) file names of
one directory by their suffix list. -/
def classifyFiles : SheetFiles → String → List String → SheetFiles
  | acc, _, [] => acc
  | acc, d, f :: fs =>
    let acc2 :=
      if pySuffixes f = [".json"] then
        { acc with json_files := acc.json_files ++ [(d, f)] }
      else if pySuffixes f = [".png"] then
        { acc with png_files := acc.png_files ++ [(d, f)] }
      else acc
    classifyFiles acc2 d fs

/-- Outer loop of `walk_dirs` over the directory-sorted walk listing. -/
def walkLoop : SheetFiles → List (String × List String) → SheetFiles
  | acc, [] => acc
  | acc, p :: ps =>
    walkLoop (classifyFiles acc p.1 (List.insertionSort fileLe p.2)) ps

def walk_dirs (listing : List (String × List String)) : SheetFiles :=
  walkLoop ⟨[], []⟩ (List.insertionSort dirLe listing)

/-! ## Tileset info document and per-sheet configuration -/

/-- Tileset-wide defaults resolved from `info[0]` in `Tileset.__init__`;
the field defaults are the attribute initializers of the source. -/
structure TreeDefaults where
  width : JVal := .i 16
  height : JVal := .i 16
  zlevel_height : JVal := .i 0
  pixelscale : JVal := .i 1
  iso : JVal := .b false
  retract_dist_min : JVal := .num "-1.0"
  retract_dist_max : JVal := .num "1.0"
deriving DecidableEq

/-- One per-sheet configuration value from `info[1:]` (the `specs` dict of
`Tilesheet.__init__`); `none` means the key is absent and the
`specs.get(..., default)` fallback applies. -/
structure SheetSpecs where
  sprite_width : Option JVal := none
  sprite_height : Option JVal := none
  sprite_offset_x : Option JVal := none
  sprite_offset_y : Option JVal := none
  sprite_offset_x_retracted : Option JVal := none
  sprite_offset_y_retracted : Option JVal := none
  pixelscale : Option JVal := none
  sprites_across : Option Int := none
  filler : Bool := false
  fallback : Bool := false
deriving DecidableEq

/-- A sheet block of the input tree: its configured name and specs plus
the raw (unsorted) walk listing of its `pngs_…` subdirectory. -/
structure SheetIn where
  name : String
  specs : SheetSpecs
  listing : List (String × List String)

/-- The whole input tree.  `content dir file` is the parsed value of the
JSON fragment at `dir/file` as `Tilesheet.process_json` stores it: the
loaded document wrapped into a list when it is not one (parsing itself is
deterministic, so the parsed form is the input of the model). -/
structure TreeIn where
  defaults : TreeDefaults := {}
  sheets : List SheetIn
  content : String → String → List JVal

/-- The `Tilesheet` object as it stands at the end of the indexing phase,
together with the final content of its `sprites` list: the synthetic null
placeholder cell (`Option.none`, appended once at the very start of the
very first sheet by `Tileset.compose`) followed by one cell per discovered
PNG file (appended by `load_sheet_images` in the composing phase). -/
structure SheetM where
  name : String
  sprite_width : JVal
  sprite_height : JVal
  offset_x : JVal
  offset_y : JVal
  offset_x_retracted : JVal
  offset_y_retracted : JVal
  pixelscale : JVal
  sprites_across : Int
  is_fallback : Bool
  is_filler : Bool
  json_files : List (String × String)
  png_files : List (String × String)
  tile_entries : List (JVal × String)
  sprites : List (Option (String × String))
  first_index : Int
  max_index : Int
deriving DecidableEq

def resolvedAcross (sp : SheetSpecs) : Int := sp.sprites_across.getD 16

/-- One iteration of the step-1 loop of `Tileset.compose`: build the
`Tilesheet` (`first_index = pngnum + 1`), append the null placeholder to
the very first sheet, walk and parse JSON for non-fallback sheets,
register every PNG file name, then pad `pngnum` to a full grid row (via
`diff`) plus the one-shot `offset` (−1 on the first sheet only) and record
`max_index`. -/
def sheet_step (obsolete_fillers : Bool) (defaults : TreeDefaults)
    (content : String → String → List JVal) (addedNull : Bool) (offset : Int)
    (st : TilesetSt) (name : String) (sp : SheetSpecs) (files : SheetFiles) :
    SheetM × TilesetSt :=
  let is_fallback := sp.fallback
  let is_filler := !is_fallback && sp.filler
  let json_files := if is_fallback then [] else files.json_files
  let png_files := if is_fallback then [] else files.png_files
  let tile_entries :=
    json_files.flatMap (fun p => (content p.1 p.2).map (fun e => (e, pathStr p.1 p.2)))
  let first_index := st.pngnum + 1
  let st1 := png_files.foldl
    (fun s p => process_png_filename obsolete_fillers is_filler s p.1 p.2) st
  let t : Int := png_files.length
  let a := resolvedAcross sp
  let m := t % a
  let diff := a - (if m = 0 then a else m)
  let st2 := { st1 with pngnum := st1.pngnum + diff + offset }
  ({ name := name
   , sprite_width := sp.sprite_width.getD defaults.width
   , sprite_height := sp.sprite_height.getD defaults.height
   , offset_x := sp.sprite_offset_x.getD (.i 0)
   , offset_y := sp.sprite_offset_y.getD (.i 0)
   , offset_x_retracted :=
       sp.sprite_offset_x_retracted.getD (sp.sprite_offset_x.getD (.i 0))
   , offset_y_retracted :=
       sp.sprite_offset_y_retracted.getD (sp.sprite_offset_y.getD (.i 0))
   , pixelscale := sp.pixelscale.getD (.num "1.0")
   , sprites_across := a
   , is_fallback := is_fallback
   , is_filler := is_filler
   , json_files := json_files
   , png_files := png_files
   , tile_entries := tile_entries
   , sprites := (if ¬ addedNull then [none] else []) ++ png_files.map some
   , first_index := first_index
   , max_index := st2.pngnum }, st2)

/-- The step-1 loop of `Tileset.compose` over `info[1:]`: the first
iteration appends the null placeholder and applies the −1 offset, all
later iterations run with offset 0. -/
def index_sheets (obsolete_fillers : Bool) (defaults : TreeDefaults)
    (content : String → String → List JVal) :
    TilesetSt → Bool → Int → List (String × SheetSpecs × SheetFiles) →
    List SheetM × TilesetSt
  | st, _, _, [] => ([], st)
  | st, addedNull, offset, (nm, sp, files) :: rest =>
    let r := sheet_step obsolete_fillers defaults content addedNull offset st nm sp files
    let rrest := index_sheets obsolete_fillers defaults content r.2 true 0 rest
    (r.1 :: rrest.1, rrest.2)

/-- The projection of a configured sheet the pipeline actually consumes:
its name, its specs and the deterministic `walk_dirs` view of its
directory listing. -/
def sheetKey (sh : SheetIn) : String × SheetSpecs × SheetFiles :=
  (sh.name, sh.specs, walk_dirs sh.listing)

/-! ## Steps 2 and 3 of `Tileset.compose`: the merged output document -/

/-- `Tilesheet.is_standard`. -/
def is_standard (d : TreeDefaults) (sh : SheetM) : Bool :=
  if jTruthy sh.offset_x || jTruthy sh.offset_y then false
  else if sh.offset_x_retracted ≠ sh.offset_x ∨ sh.offset_y_retracted ≠ sh.offset_y then
    false
  else if sh.sprite_width ≠ d.width then false
  else if sh.sprite_height ≠ d.height then false
  else if pyStr sh.pixelscale ≠ "1.0" then false
  else true

/-- The key/value pairs `Tileset.non_standard_sheet` adds to a sheet
configuration dict. -/
def non_standard_fields (sh : SheetM) : List (String × JVal) :=
  [("sprite_width", sh.sprite_width), ("sprite_height", sh.sprite_height),
   ("sprite_offset_x", sh.offset_x), ("sprite_offset_y", sh.offset_y)]
  ++ (if sh.offset_x_retracted ≠ sh.offset_x ∨ sh.offset_y_retracted ≠ sh.offset_y then
        [("sprite_offset_x_retracted", sh.offset_x_retracted),
         ("sprite_offset_y_retracted", sh.offset_y_retracted)]
      else [])
  ++ (if pyStr sh.pixelscale ≠ "1.0" then [("pixelscale", sh.pixelscale)] else [])

/-- Setting several keys on a dict in order (`sheetconf[k] = v` lines of
`non_standard_sheet`): existing keys are updated in place, new keys are
appended. -/
def mergeFields (kvs new : List (String × JVal)) : List (String × JVal) :=
  new.foldl (fun acc kv => objSet acc kv.1 kv.2) kvs

/-- `tiles_new_dict[k] = v` on the max-index-keyed dict: update in place
when the key exists, append otherwise. -/
def assocSetInt : List (Int × JVal) → Int → JVal → List (Int × JVal)
  | [], k, v => [(k, v)]
  | (k0, v0) :: rest, k, v =>
    if k0 = k then (k0, v) :: rest else (k0, v0) :: assocSetInt rest k v

/-- `Tileset.handle_unreferenced_sprites`: with auto-fill disabled
(`no_use_all`) report every remaining unreferenced sprite of the category
and return nothing; otherwise return the list for auto-fill. -/
def handle_unreferenced_sprites (no_use_all : Bool) (output_conf_file : String)
    (st : TilesetSt) (useFiller : Bool) : List String × TilesetSt :=
  let names := if useFiller then st.unreferenced_filler else st.unreferenced_main
  let catName := if useFiller then "filler" else "main"
  if no_use_all then
    let st2 := names.foldl (fun s pngname =>
      if pngname ∈ s.processed_ids then
        emitD s
          { level := .error, sigType := .errorMessage
          , message := "\x7b\x7d was not used, but ID \x7b\x7d is mentioned in a tile entry."
          , args := [.s (pngname ++ ".png"), .s pngname]
          , msgType := some .errNotUsed }
      else
        emitD s
          { level := .warning, sigType := .warningMessage
          , message := "Sprite filename \x7b\x7d was not used in any \x7b\x7d \x7b\x7d entries."
          , args := [.s (pngname ++ ".png"), .s catName, .s output_conf_file]
          , msgType := some .warnSpriteUnref }) st
    ([], st2)
  else (names, st)

/-- Append a synthesized `{"id": name, "fg": index}` tile entry to the
`tiles` list of a sheet configuration dict
(`sheet_data["tiles"].append(...)`). -/
def appendTileTo (conf : JVal) (unused_png : String) (unused_num : Int) : JVal :=
  match conf with
  | .obj kvs =>
    let tiles := match objGet kvs "tiles" with | some (.arr xs) => xs | _ => []
    .obj (objSet kvs "tiles"
      (.arr (tiles ++ [.obj [("id", .s unused_png), ("fg", .i unused_num)]])))
  | v => v

/-- The bucket search of `create_tile_entries_for_unused`: walk the
max-index-keyed dict in insertion order keeping the running lower bound,
and append the synthesized entry to the first sheet whose
`(sheet_min_index, sheet_max_index]` range contains the sprite index.
Returns `none` when no range matches (the loop just ends). -/
def bucket_insert (png : String) (num : Int) :
    Int → List (Int × JVal) → Option (List (Int × JVal))
  | _, [] => none
  | minIdx, (maxIdx, conf) :: rest =>
    if minIdx < num ∧ num ≤ maxIdx then
      some ((maxIdx, appendTileTo conf png num) :: rest)
    else
      match bucket_insert png num maxIdx rest with
      | some rest2 => some ((maxIdx, conf) :: rest2)
      | none => none

/-- `create_tile_entries_for_unused` (inner function of
`Tileset.compose`): synthesize a tile entry for every unused sprite whose
basename is not already a processed id; sprites whose basename is a
processed id are only reported.  The sprite index is looked up in the
registry (`pngname_to_pngnum[unused_png]`; the name always comes from a
registration, so the lookup cannot fail and the model defaults to 0). -/
def create_tile_entries_for_unused (obsolete_fillers fillers : Bool)
    (acc : List (Int × JVal) × TilesetSt) (unused : List String) :
    List (Int × JVal) × TilesetSt :=
  unused.foldl (fun ac unused_png =>
    if unused_png ∈ ac.2.processed_ids then
      let st1 :=
        if ¬ fillers then
          emitD ac.2
            { level := .warning, sigType := .warningMessage
            , message := "Sprite \x7b\x7d was not mentioned in any tile entry but there is a tile entry for the ID \x7b\x7d."
            , args := [.s (unused_png ++ ".png"), .s unused_png]
            , msgType := some .warnNotMentioned }
        else ac.2
      let st2 :=
        if fillers ∧ obsolete_fillers then
          emitD st1
            { level := .warning, sigType := .warningMessage
            , message := "There is a tile entry for \x7b\x7d in a non-filler sheet"
            , args := [.s unused_png]
            , msgType := some .warnFillerUnused }
        else st1
      (ac.1, st2)
    else
      let unused_num := (ac.2.pngname_to_pngnum.lookup unused_png).getD 0
      match bucket_insert unused_png unused_num 0 ac.1 with
      | some tn =>
        (tn, { ac.2 with processed_ids := ac.2.processed_ids ++ [unused_png] })
      | none => (ac.1, ac.2)) acc

/-- Convert the tile entries of one sheet, keeping the entries `convert`
returned (dropping the ones it discarded). -/
def convert_sheet_entries (is_filler obsolete_fillers : Bool)
    (output_conf_file : String) (st : TilesetSt)
    (entries : List (JVal × String)) : List JVal × TilesetSt :=
  entries.foldl (fun ac ep =>
    let cx : ConvCtx :=
      { is_filler := is_filler, obsolete_fillers := obsolete_fillers
      , filepath := ep.2, output_conf_file := output_conf_file }
    let r := convertTop cx ac.2 ep.1
    (if r.2.1 then ac.1 ++ [r.1] else ac.1, r.2.2)) ([], st)

/-- Accumulator of the step-2 loop of `Tileset.compose`. -/
structure MergeAcc where
  tiles_new : List (Int × JVal)
  fallback_name : String
  fallback_extra : List (String × JVal)
  main_finished : Bool
  st : TilesetSt

/-- One iteration of the step-2 loop of `Tileset.compose` over
`sheet_configs`: fallback sheets only set the fallback output name (and
extend the global FALLBACK dict when non-standard); the first filler sheet
first triggers auto-fill of the unreferenced main sprites; every other
sheet has its tile entries converted and its configuration block stored in
the max-index-keyed dict. -/
def merge_sheet (no_use_all obsolete_fillers : Bool) (output_conf_file : String)
    (d : TreeDefaults) (acc : MergeAcc) (sheet : SheetM) : MergeAcc :=
  if sheet.is_fallback then
    { acc with
      fallback_name := sheet.name
    , fallback_extra :=
        if ¬ is_standard d sheet then
          mergeFields acc.fallback_extra (non_standard_fields sheet)
        else acc.fallback_extra }
  else
    let acc1 :=
      if sheet.is_filler && ! acc.main_finished then
        let h := handle_unreferenced_sprites no_use_all output_conf_file acc.st false
        let c := create_tile_entries_for_unused obsolete_fillers true
          (acc.tiles_new, h.2) h.1
        { acc with tiles_new := c.1, st := c.2, main_finished := true }
      else acc
    let rents := convert_sheet_entries sheet.is_filler obsolete_fillers
      output_conf_file acc1.st sheet.tile_entries
    let conf0 : List (String × JVal) :=
      [("file", .s sheet.name)
      ,("//", .s ("range " ++ toString sheet.first_index ++ " to "
          ++ toString sheet.max_index))]
    let conf1 :=
      if ¬ is_standard d sheet then conf0 ++ non_standard_fields sheet else conf0
    let conf2 := conf1 ++ [("tiles", .arr rents.1)]
    { acc1 with
      st := rents.2
    , tiles_new := assocSetInt acc1.tiles_new sheet.max_index (.obj conf2) }

/-- The `FALLBACK` ascii table constant of `compose.py`. -/
def fallbackAscii : List (Int × Bool × String) :=
  [(0, false, "BLACK"), (256, true, "WHITE"), (512, false, "WHITE")
  ,(768, true, "BLACK"), (1024, false, "RED"), (1280, false, "GREEN")
  ,(1536, false, "BLUE"), (1792, false, "CYAN"), (2048, false, "MAGENTA")
  ,(2304, false, "YELLOW"), (2560, true, "RED"), (2816, true, "GREEN")
  ,(3072, true, "BLUE"), (3328, true, "CYAN"), (3584, true, "MAGENTA")
  ,(3840, true, "YELLOW")]

/-- The trailing synthetic fallback block (`FALLBACK` with its `file` key
updated and any geometry keys added by `non_standard_sheet`). -/
def fallback_obj (fallback_name : String) (extra : List (String × JVal)) : JVal :=
  .obj ([("file", .s fallback_name), ("tiles", .arr [])
        ,("ascii", .arr (fallbackAscii.map (fun tr =>
            .obj [("offset", .i tr.1), ("bold", .b tr.2.1), ("color", .s tr.2.2)])))]
        ++ extra)

/-- The single `tile_info` element of the output document. -/
def tile_info_obj (d : TreeDefaults) : JVal :=
  .obj [("pixelscale", d.pixelscale), ("width", d.width), ("height", d.height)
       ,("zlevel_height", d.zlevel_height), ("iso", d.iso)
       ,("retract_dist_min", d.retract_dist_min)
       ,("retract_dist_max", d.retract_dist_max)]

/-- Engine flags relevant to the merged document. -/
structure ComposeFlags where
  no_use_all : Bool := false
  obsolete_fillers : Bool := false
  output_conf_file : String := "tile_config.json"

/-- Steps 1–3 of `Tileset.compose` as one function from the resolved
sheet inputs to the merged output document (`output_conf`) and the final
registry state.  The composing step (image output) happens after the
document is written and does not touch it. -/
def compose_pipeline (fl : ComposeFlags) (d : TreeDefaults)
    (content : String → String → List JVal)
    (sheetKeys : List (String × SheetSpecs × SheetFiles)) : JVal × TilesetSt :=
  let r := index_sheets fl.obsolete_fillers d content initialTilesetSt false (-1) sheetKeys
  let sheets := r.1
  let sheet_configs :=
    sheets.filter (fun s => ¬ s.is_filler ∧ ¬ s.is_fallback)
    ++ sheets.filter (fun s => s.is_filler)
    ++ sheets.filter (fun s => s.is_fallback)
  let acc0 : MergeAcc :=
    { tiles_new := [], fallback_name := "fallback.png", fallback_extra := []
    , main_finished := false, st := r.2 }
  let acc1 := sheet_configs.foldl
    (merge_sheet fl.no_use_all fl.obsolete_fillers fl.output_conf_file d) acc0
  let acc2 :=
    if ¬ acc1.main_finished then
      let h := handle_unreferenced_sprites fl.no_use_all fl.output_conf_file acc1.st false
      let c := create_tile_entries_for_unused fl.obsolete_fillers false
        (acc1.tiles_new, h.2) h.1
      { acc1 with tiles_new := c.1, st := c.2 }
    else acc1
  let h2 := handle_unreferenced_sprites fl.no_use_all fl.output_conf_file acc2.st true
  let c2 := create_tile_entries_for_unused fl.obsolete_fillers true
    (acc2.tiles_new, h2.2) h2.1
  let tiles_new := c2.1.map (fun kv => kv.2)
    ++ [fallback_obj acc2.fallback_name acc2.fallback_extra]
  (.obj [("tile_info", .arr [tile_info_obj d]), ("tiles-new", .arr tiles_new)], c2.2)

/-- The merged configuration document of a run on input tree `t`. -/
def mergedDoc (fl : ComposeFlags) (t : TreeIn) : JVal :=
  (compose_pipeline fl t.defaults t.content (t.sheets.map sheetKey)).1

/-- The bytes `write_to_json` writes for the merged document
(`json.dump(..., ensure_ascii=False)`, `format_json` off). -/
def mergedDocBytes (fl : ComposeFlags) (t : TreeIn) : String :=
  renderJson (mergedDoc fl t)

/-! ## Cancellation and the run dispatcher

`StopComposing` and `ComposingException` are distinct exception types;
`ComposeRunner.run` catches them separately: a `ComposingException`
produces a critical auto-abort report, `StopComposing` produces the
info-level FINISHED "Composing aborted." event and nothing else. -/

inductive RunExc where
  | composingExc (msg : String)
  | stopComposing
deriving DecidableEq

/-- `Tileset.check_abort`: raise `StopComposing` iff the shared abort flag
`to_exit` is set. -/
def check_abort (to_exit : Bool) : Option RunExc :=
  if to_exit then some .stopComposing else none

/-- `Tileset.compose` as seen by the runner: the abort flag is checked at
the iteration boundaries, so a set flag makes the whole run unwind with
`StopComposing`; otherwise the run produces whatever outcome the remaining
work produces (`rest`). -/
def compose_outcome (to_exit : Bool) (rest : Option RunExc) : Option RunExc :=
  match check_abort to_exit with
  | some e => some e
  | none => rest

/-- The exception dispatch of `ComposeRunner.run`: the diagnostics the
handlers emit for each outcome. -/
def run_outcome_diags : Option RunExc → List Diag
  | none => []
  | some (.composingExc msg) =>
    [{ level := .critical, sigType := .criticalMessage
     , message := msg ++ ". \x7b\x7d..."
     , args := [.s "Auto-Aborting"]
     , msgType := some .critGeneric }]
  | some .stopComposing =>
    [{ level := .info, sigType := .finished
     , message := "Composing aborted."
     , args := []
     , msgType := none }]

/-- `ComposeRunner.run` on a run whose abort flag is `to_exit`. -/
def runner_run (to_exit : Bool) (rest : Option RunExc) : List Diag :=
  run_outcome_diags (compose_outcome to_exit rest)

/-! ## `Tilesheet.write_composite_png` -/

structure PngWrite where
  path : String
  palette : Bool
deriving DecidableEq

/-- Result of `write_composite_png`: the returned Bool, the grid image
handed to `arrayjoin` (the sprite cells and the `across` packing width),
and the png files written. -/
structure ComposeOut where
  ret : Bool
  image : Option (List (Option (String × String)) × Int)
  writes : List PngWrite
deriving DecidableEq

/-- `Tilesheet.write_composite_png`: no sprites → `False`, nothing
written; `only_json` → `True`, nothing written; otherwise the sprites are
packed `across`-wide by `arrayjoin`, saved to the sheet output (palette
quantized iff the `palette` flag is set), plus a palette-quantized `.png8`
copy iff `palette_copies` is set and `palette` is not. -/
def write_composite_png (only_json palette palette_copies : Bool)
    (sheet : SheetM) : ComposeOut :=
  if sheet.sprites.isEmpty then { ret := false, image := none, writes := [] }
  else if only_json then { ret := true, image := none, writes := [] }
  else
    { ret := true
    , image := some (sheet.sprites, sheet.sprites_across)
    , writes :=
        [{ path := sheet.name, palette := palette }]
        ++ (if palette_copies ∧ ¬ palette then
              [{ path := sheet.name ++ "8", palette := true }]
            else []) }

/-! ## Helper lemmas on the registry operations -/

theorem lookup_append (l1 l2 : List (String × Int)) (k : String) :
    (l1 ++ l2).lookup k = ((l1.lookup k).orElse (fun _ => l2.lookup k)) := by
  induction l1 with
  | nil => simp [List.lookup]
  | cons kv rest ih =>
    simp only [List.cons_append, List.lookup]
    cases hbe : (k == kv.1) <;> simp [hbe, ih]

theorem process_png_dup_state (obsF isF : Bool) (st : TilesetSt) (dir f : String)
    (i : Int) (h : st.pngname_to_pngnum.lookup (pyStem f) = some i) :
    (process_png_filename obsF isF st dir f).pngnum = st.pngnum ∧
    (process_png_filename obsF isF st dir f).pngname_to_pngnum =
      st.pngname_to_pngnum ∧
    (process_png_filename obsF isF st dir f).unreferenced_main =
      st.unreferenced_main ∧
    (process_png_filename obsF isF st dir f).unreferenced_filler =
      st.unreferenced_filler ∧
    (process_png_filename obsF isF st dir f).processed_ids = st.processed_ids := by
  simp only [process_png_filename, h]
  split <;> split <;> simp_all [emitD]

theorem process_png_fresh_state (obsF isF : Bool) (st : TilesetSt) (dir f : String)
    (h : st.pngname_to_pngnum.lookup (pyStem f) = none) :
    process_png_filename obsF isF st dir f =
      { st with
        pngnum := st.pngnum + 1
      , pngname_to_pngnum := st.pngname_to_pngnum ++ [(pyStem f, st.pngnum + 1)]
      , unreferenced_main :=
          if isF then st.unreferenced_main else st.unreferenced_main ++ [pyStem f]
      , unreferenced_filler :=
          if isF then st.unreferenced_filler ++ [pyStem f]
          else st.unreferenced_filler } := by
  simp only [process_png_filename, h]

theorem process_png_pngnum_ge (obsF isF : Bool) (st : TilesetSt) (dir f : String) :
    st.pngnum ≤ (process_png_filename obsF isF st dir f).pngnum := by
  cases h : st.pngname_to_pngnum.lookup (pyStem f) with
  | some i => exact le_of_eq (process_png_dup_state obsF isF st dir f i h).1.symm
  | none =>
    rw [process_png_fresh_state obsF isF st dir f h]
    show st.pngnum ≤ st.pngnum + 1
    omega

theorem process_png_lookup_preserved (obsF isF : Bool) (st : TilesetSt)
    (dir f k : String) (v : Int) (h : st.pngname_to_pngnum.lookup k = some v) :
    (process_png_filename obsF isF st dir f).pngname_to_pngnum.lookup k = some v := by
  cases hl : st.pngname_to_pngnum.lookup (pyStem f) with
  | some i => rw [(process_png_dup_state obsF isF st dir f i hl).2.1]; exact h
  | none =>
    rw [process_png_fresh_state obsF isF st dir f hl, lookup_append, h]
    rfl

theorem foldpng_pngnum_ge (obsF isF : Bool) (files : List (String × String))
    (st : TilesetSt) :
    st.pngnum ≤
      (files.foldl (fun s p => process_png_filename obsF isF s p.1 p.2) st).pngnum := by
  induction files generalizing st with
  | nil => simp
  | cons p rest ih =>
    simp only [List.foldl_cons]
    exact le_trans (process_png_pngnum_ge obsF isF st p.1 p.2) (ih _)

theorem foldpng_lookup_preserved (obsF isF : Bool) (files : List (String × String))
    (st : TilesetSt) (k : String) (v : Int)
    (h : st.pngname_to_pngnum.lookup k = some v) :
    ((files.foldl (fun s p => process_png_filename obsF isF s p.1 p.2) st)
      |>.pngname_to_pngnum.lookup k) = some v := by
  induction files generalizing st with
  | nil => simpa using h
  | cons p rest ih =>
    simp only [List.foldl_cons]
    exact ih _ (process_png_lookup_preserved obsF isF st p.1 p.2 k v h)

theorem pad_diff_nonneg (t a : Int) (ha : 1 ≤ a) :
    0 ≤ a - (if t % a = 0 then a else t % a) := by
  split
  · omega
  · have h1 : 0 ≤ t % a := Int.emod_nonneg t (by omega)
    have h2 : t % a < a := Int.emod_lt_of_pos t (by omega)
    omega

/-- C4: duplicate registration leaves the registry untouched (the first
index is retained, `pngnum` never advances) and reports the duplicate with
error severity on non-filler sheets and as a suppressible warning on
filler sheets; fresh registration advances `pngnum` by exactly one, stores
the mapping and appends the basename to the unreferenced list of the
sheet's category, with no diagnostic. -/
theorem c4_register (obsF isF : Bool) (st : TilesetSt) (dir f : String) :
    (∀ i : Int, st.pngname_to_pngnum.lookup (pyStem f) = some i →
      (process_png_filename obsF isF st dir f).pngname_to_pngnum =
        st.pngname_to_pngnum ∧
      (process_png_filename obsF isF st dir f).pngnum = st.pngnum ∧
      (process_png_filename obsF isF st dir f).pngname_to_pngnum.lookup (pyStem f)
        = some i ∧
      (process_png_filename obsF isF st dir f).unreferenced_main =
        st.unreferenced_main ∧
      (process_png_filename obsF isF st dir f).unreferenced_filler =
        st.unreferenced_filler ∧
      (isF = false →
        (process_png_filename obsF isF st dir f).diags = st.diags ++
          [{ level := .error, sigType := .errorMessage
           , message := "Duplicate root name for ID \x7b\x7d: \x7b\x7d."
           , args := [.s (pyStem f), .s (pathStr dir f)]
           , msgType := some .errDuplicateName }]) ∧
      (isF = true →
        (process_png_filename obsF isF st dir f).diags = st.diags ++
          (if obsF then
            [{ level := .warning, sigType := .warningMessage
             , message := "Root name \x7b\x7d is already present in a non-filler sheet: \x7b\x7d"
             , args := [.s (pyStem f), .s (pathStr dir f)]
             , msgType := some .warnFillerDuplicate }]
          else []))) ∧
    (st.pngname_to_pngnum.lookup (pyStem f) = none →
      (process_png_filename obsF isF st dir f).pngnum = st.pngnum + 1 ∧
      (process_png_filename obsF isF st dir f).pngname_to_pngnum =
        st.pngname_to_pngnum ++ [(pyStem f, st.pngnum + 1)] ∧
      (process_png_filename obsF isF st dir f).pngname_to_pngnum.lookup (pyStem f)
        = some (st.pngnum + 1) ∧
      (isF = false →
        (process_png_filename obsF isF st dir f).unreferenced_main =
          st.unreferenced_main ++ [pyStem f] ∧
        (process_png_filename obsF isF st dir f).unreferenced_filler =
          st.unreferenced_filler) ∧
      (isF = true →
        (process_png_filename obsF isF st dir f).unreferenced_filler =
          st.unreferenced_filler ++ [pyStem f] ∧
        (process_png_filename obsF isF st dir f).unreferenced_main =
          st.unreferenced_main) ∧
      (process_png_filename obsF isF st dir f).diags = st.diags) := by
  constructor
  · intro i h
    refine ⟨(process_png_dup_state obsF isF st dir f i h).2.1,
      (process_png_dup_state obsF isF st dir f i h).1, ?_,
      (process_png_dup_state obsF isF st dir f i h).2.2.1,
      (process_png_dup_state obsF isF st dir f i h).2.2.2.1, ?_, ?_⟩
    · rw [(process_png_dup_state obsF isF st dir f i h).2.1]; exact h
    · intro hf
      subst hf
      simp [process_png_filename, h, emitD]
    · intro hf
      subst hf
      cases obsF <;> simp [process_png_filename, h, emitD]
  · intro h
    rw [process_png_fresh_state obsF isF st dir f h]
    refine ⟨rfl, rfl, ?_, ?_, ?_, rfl⟩
    · simp only []
      rw [lookup_append, h]
      simp [List.lookup]
    · intro hf; subst hf; simp
    · intro hf; subst hf; simp

/-- C4 witness: a concrete duplicate registration (re-registering
`a.png` after a fresh registration) keeps the registry unchanged and
returns through the duplicate branch, and a concrete fresh registration
advances the counter. -/
theorem c4_register_witness :
    ((process_png_filename false false
        { initialTilesetSt with
          pngname_to_pngnum := [("null_image", 0), ("a", 1)], pngnum := 1 }
        "d" "a.png").pngname_to_pngnum = [("null_image", 0), ("a", 1)] ∧
     (process_png_filename false false
        { initialTilesetSt with
          pngname_to_pngnum := [("null_image", 0), ("a", 1)], pngnum := 1 }
        "d" "a.png").pngnum = 1) ∧
    (process_png_filename false false initialTilesetSt "d" "b.png").pngnum = 1 := by
  have h1 := (c4_register false false
    { initialTilesetSt with
      pngname_to_pngnum := [("null_image", 0), ("a", 1)], pngnum := 1 }
    "d" "a.png").1 1 (by decide)
  have h2 := (c4_register false false initialTilesetSt "d" "b.png").2 (by decide)
  exact ⟨⟨h1.1, h1.2.1⟩, h2.1⟩

/-! ## Lemmas on sprite resolution (`append_sprite_index` and the layer
conversion loops) -/

/-- The three possible outcomes of `append_sprite_index`: falsy name
(nothing happens), unresolved name (not-found error, nothing appended), or
successful resolution (nonzero index appended, name erased from the
unreferenced list of the referencing sheet category). -/
theorem append_sprite_cases (cx : ConvCtx) (st : TilesetSt) (v : JVal)
    (entry : List JVal) :
    (append_sprite_index cx st v entry = (entry, false, st)) ∨
    (append_sprite_index cx st v entry =
      (entry, false, emitD st (png_not_found_diag cx v))) ∨
    (∃ n : String, ∃ m : Int, v = .s n ∧ m ≠ 0 ∧
      (st.pngname_to_pngnum.lookup n).getD 0 = m ∧
      append_sprite_index cx st v entry =
        (entry ++ [.i m], true,
         if cx.is_filler then
           { st with unreferenced_filler := st.unreferenced_filler.erase n }
         else { st with unreferenced_main := st.unreferenced_main.erase n })) := by
  by_cases ht : jTruthy v
  · cases v with
    | s n =>
      by_cases hz : (st.pngname_to_pngnum.lookup n).getD 0 = 0
      · right; left
        simp [append_sprite_index, ht, hz]
      · right; right
        exact ⟨n, (st.pngname_to_pngnum.lookup n).getD 0, rfl, hz, rfl, by
          simp [append_sprite_index, ht, hz]⟩
    | i m => right; left; simp [append_sprite_index, ht]
    | num m => right; left; simp [append_sprite_index, ht]
    | b m => right; left; simp [append_sprite_index, ht]
    | null => simp [jTruthy] at ht
    | arr xs => right; left; simp [append_sprite_index, ht]
    | obj kvs => right; left; simp [append_sprite_index, ht]
  · left; simp [append_sprite_index, ht]

theorem append_sprite_diags (cx : ConvCtx) (st : TilesetSt) (v : JVal)
    (entry : List JVal) :
    ∃ tl, (append_sprite_index cx st v entry).2.2.diags = st.diags ++ tl := by
  rcases append_sprite_cases cx st v entry with h | h | ⟨n, m, _, _, _, h⟩
  · exact ⟨[], by rw [h]; simp⟩
  · exact ⟨[png_not_found_diag cx v], by rw [h]; simp [emitD]⟩
  · refine ⟨[], ?_⟩
    rw [h]
    by_cases hf : cx.is_filler <;> simp [hf]

theorem append_sprite_elems (cx : ConvCtx) (st : TilesetSt) (v : JVal)
    (entry : List JVal) :
    ∀ x ∈ (append_sprite_index cx st v entry).1,
      x ∈ entry ∨ ∃ m : Int, x = .i m ∧ m ≠ 0 := by
  rcases append_sprite_cases cx st v entry with h | h | ⟨n, m, _, hm, _, h⟩ <;>
    rw [h] <;> intro x hx
  · exact .inl hx
  · exact .inl hx
  · rcases List.mem_append.mp hx with h1 | h1
    · exact .inl h1
    · simp at h1
      exact .inr ⟨m, h1, hm⟩

/-- A converted layer element: a nonzero sprite index, or a weighted
variation object whose `sprite` value is a nonzero index or a list of
nonzero indices.  In particular the placeholder index 0 and unresolved
names never occur. -/
def ResolvedElem : JVal → Prop
  | .i n => n ≠ 0
  | .obj kvs =>
    match objGet kvs "sprite" with
    | some (.i n) => n ≠ 0
    | some (.arr xs) => ∀ x ∈ xs, ∃ m : Int, x = .i m ∧ m ≠ 0
    | _ => False
  | _ => False

theorem objGet_objSet (kvs : List (String × JVal)) (k : String) (v : JVal) :
    objGet (objSet kvs k v) k = some v := by
  induction kvs with
  | nil => simp [objSet, objGet, List.lookup]
  | cons kv rest ih =>
    by_cases h : kv.1 = k
    · simp [objSet, h, objGet, List.lookup]
    · simp only [objSet]
      rw [if_neg h]
      simp only [objGet, List.lookup] at ih ⊢
      have : (k == kv.1) = false := by
        simp [Ne.symm h]
      rw [this]
      exact ih

theorem variations_list_spec (cx : ConvCtx) (xs : List JVal) :
    ∀ st out valid,
      (∀ x ∈ (convert_variations_list cx st xs out valid).1,
        x ∈ out ∨ ∃ m : Int, x = .i m ∧ m ≠ 0) ∧
      (∃ tl, (convert_variations_list cx st xs out valid).2.2.diags
        = st.diags ++ tl) := by
  induction xs with
  | nil =>
    intro st out valid
    exact ⟨fun x hx => .inl hx, [], by simp [convert_variations_list]⟩
  | cons v vs ih =>
    intro st out valid
    simp only [convert_variations_list]
    obtain ⟨ihel, tl2, ihdi⟩ :=
      ih (append_sprite_index cx st v out).2.2
        (append_sprite_index cx st v out).1
        (valid || (append_sprite_index cx st v out).2.1)
    constructor
    · intro x hx
      rcases ihel x hx with h1 | h1
      · exact append_sprite_elems cx st v out x h1
      · exact .inr h1
    · obtain ⟨tl1, hd1⟩ := append_sprite_diags cx st v out
      exact ⟨tl1 ++ tl2, by rw [ihdi, hd1, List.append_assoc]⟩

theorem random_variations_spec (cx : ConvCtx) (st : TilesetSt) (sn : JVal) :
    (∀ x ∈ (convert_random_variations cx st sn).1,
      ∃ m : Int, x = .i m ∧ m ≠ 0) ∧
    (∃ tl, (convert_random_variations cx st sn).2.2.diags = st.diags ++ tl) := by
  cases sn with
  | arr xs =>
    obtain ⟨hel, htl⟩ := variations_list_spec cx xs st [] false
    exact ⟨fun x hx => by
      rcases hel x hx with h1 | h1
      · simp at h1
      · exact h1, htl⟩
  | s n =>
    constructor
    · intro x hx
      rcases append_sprite_elems cx st (.s n) [] x hx with h1 | h1
      · simp at h1
      · exact h1
    · exact append_sprite_diags cx st (.s n) []
  | i m =>
    refine ⟨fun x hx => ?_, append_sprite_diags cx st (.i m) []⟩
    rcases append_sprite_elems cx st (.i m) [] x hx with h1 | h1
    · simp at h1
    · exact h1
  | num m =>
    refine ⟨fun x hx => ?_, append_sprite_diags cx st (.num m) []⟩
    rcases append_sprite_elems cx st (.num m) [] x hx with h1 | h1
    · simp at h1
    · exact h1
  | b m =>
    refine ⟨fun x hx => ?_, append_sprite_diags cx st (.b m) []⟩
    rcases append_sprite_elems cx st (.b m) [] x hx with h1 | h1
    · simp at h1
    · exact h1
  | null =>
    refine ⟨fun x hx => ?_, append_sprite_diags cx st .null []⟩
    rcases append_sprite_elems cx st .null [] x hx with h1 | h1
    · simp at h1
    · exact h1
  | obj kvs =>
    refine ⟨fun x hx => ?_, append_sprite_diags cx st (.obj kvs) []⟩
    rcases append_sprite_elems cx st (.obj kvs) [] x hx with h1 | h1
    · simp at h1
    · exact h1

theorem convert_layer_list_cons_nonobj (cx : ConvCtx) (st : TilesetSt)
    (v : JVal) (rest out : List JVal) (h : ∀ kvs, v ≠ .obj kvs) :
    convert_layer_list cx st (v :: rest) out =
      convert_layer_list cx (append_sprite_index cx st v out).2.2 rest
        (append_sprite_index cx st v out).1 := by
  cases v with
  | obj kvs => exact absurd rfl (h kvs)
  | s n => simp [convert_layer_list]
  | i m => simp [convert_layer_list]
  | num m => simp [convert_layer_list]
  | b m => simp [convert_layer_list]
  | null => simp [convert_layer_list]
  | arr xs => simp [convert_layer_list]

theorem layer_list_spec (cx : ConvCtx) (parts : List JVal) :
    ∀ st out,
      (∀ x ∈ (convert_layer_list cx st parts out).1,
        x ∈ out ∨ ResolvedElem x) ∧
      (∃ tl, (convert_layer_list cx st parts out).2.diags = st.diags ++ tl) := by
  induction parts with
  | nil =>
    intro st out
    exact ⟨fun x hx => .inl hx, [], by simp [convert_layer_list]⟩
  | cons v vs ih =>
    intro st out
    by_cases hobj : ∃ kvs, v = .obj kvs
    · obtain ⟨kvs, rfl⟩ := hobj
      simp only [convert_layer_list]
      obtain ⟨hvel, tlv, hvdi⟩ := random_variations_spec cx st
        ((objGet kvs "sprite").getD .null)
      split
      · obtain ⟨ihel, tl2, ihdi⟩ := ih
          (convert_random_variations cx st ((objGet kvs "sprite").getD .null)).2.2
          (out ++ [.obj (objSet kvs "sprite" (list_or_first
            (convert_random_variations cx st ((objGet kvs "sprite").getD .null)).1))])
        constructor
        · intro x hx
          rcases ihel x hx with h1 | h1
          · rcases List.mem_append.mp h1 with h2 | h2
            · exact .inl h2
            · simp at h2
              subst h2
              right
              simp only [ResolvedElem]
              rw [objGet_objSet]
              rcases hcase :
                (convert_random_variations cx st
                  ((objGet kvs "sprite").getD .null)).1 with _ | ⟨y, ys⟩
              · intro x hx
                exact absurd hx (List.not_mem_nil x)
              · rcases ys with _ | ⟨z, zs⟩
                · obtain ⟨m, hm, hm0⟩ := hvel y (by rw [hcase]; simp)
                  rw [hm]
                  exact hm0
                · intro x hx
                  exact hvel x (by rw [hcase]; exact hx)
          · exact .inr h1
        · obtain ⟨tl2, ihdi⟩ := (ih
            (convert_random_variations cx st ((objGet kvs "sprite").getD .null)).2.2
            (out ++ [.obj (objSet kvs "sprite" (list_or_first
              (convert_random_variations cx st
                ((objGet kvs "sprite").getD .null)).1))])).2
          exact ⟨tlv ++ tl2, by rw [ihdi, hvdi, List.append_assoc]⟩
      · obtain ⟨ihel, tl2, ihdi⟩ := ih
          (convert_random_variations cx st ((objGet kvs "sprite").getD .null)).2.2 out
        refine ⟨ihel, tlv ++ tl2, ?_⟩
        rw [ihdi, hvdi, List.append_assoc]
    · rw [convert_layer_list_cons_nonobj cx st v vs out
        (fun kvs hk => hobj ⟨kvs, hk⟩)]
      obtain ⟨ihel, tl2, ihdi⟩ := ih (append_sprite_index cx st v out).2.2
        (append_sprite_index cx st v out).1
      constructor
      · intro x hx
        rcases ihel x hx with h1 | h1
        · rcases append_sprite_elems cx st v out x h1 with h2 | ⟨m, hm, hm0⟩
          · exact .inl h2
          · right
            subst hm
            exact hm0
        · exact .inr h1
      · obtain ⟨tl1, hd1⟩ := append_sprite_diags cx st v out
        exact ⟨tl1 ++ tl2, by rw [ihdi, hd1, List.append_assoc]⟩

theorem append_sprite_map_unchanged (cx : ConvCtx) (st : TilesetSt) (v : JVal)
    (entry : List JVal) :
    (append_sprite_index cx st v entry).2.2.pngname_to_pngnum =
      st.pngname_to_pngnum := by
  rcases append_sprite_cases cx st v entry with h | h | ⟨n, m, _, _, _, h⟩ <;>
    rw [h] <;> by_cases hf : cx.is_filler <;> simp [hf, emitD]

theorem variations_list_map_unchanged (cx : ConvCtx) (xs : List JVal) :
    ∀ st out valid,
      (convert_variations_list cx st xs out valid).2.2.pngname_to_pngnum =
        st.pngname_to_pngnum := by
  induction xs with
  | nil => intro st out valid; simp [convert_variations_list]
  | cons v vs ih =>
    intro st out valid
    simp only [convert_variations_list]
    rw [ih]
    exact append_sprite_map_unchanged cx st v out

theorem variations_map_unchanged (cx : ConvCtx) (st : TilesetSt) (sn : JVal) :
    (convert_random_variations cx st sn).2.2.pngname_to_pngnum =
      st.pngname_to_pngnum := by
  cases sn with
  | arr xs => exact variations_list_map_unchanged cx xs st [] false
  | s n => exact append_sprite_map_unchanged cx st (.s n) []
  | i m => exact append_sprite_map_unchanged cx st (.i m) []
  | num m => exact append_sprite_map_unchanged cx st (.num m) []
  | b m => exact append_sprite_map_unchanged cx st (.b m) []
  | null => exact append_sprite_map_unchanged cx st .null []
  | obj kvs => exact append_sprite_map_unchanged cx st (.obj kvs) []

/-- The not-found diagnostic of an unresolvable plain name inside a list
layer is present in the diagnostics after the layer loop, wherever the
name occurs. -/
theorem layer_list_missing_diag (cx : ConvCtx) (n : String) (hne : n ≠ "")
    (pre : List JVal) :
    ∀ st post out,
      (st.pngname_to_pngnum.lookup n).getD 0 = 0 →
      png_not_found_diag cx (.s n) ∈
        (convert_layer_list cx st (pre ++ .s n :: post) out).2.diags := by
  induction pre with
  | nil =>
    intro st post out hmiss
    rw [List.nil_append,
      convert_layer_list_cons_nonobj cx st (.s n) post out (fun _ h => nomatch h)]
    have happ : append_sprite_index cx st (.s n) out =
        (out, false, emitD st (png_not_found_diag cx (.s n))) := by
      simp [append_sprite_index, jTruthy, hne, hmiss]
    rw [happ]
    obtain ⟨tl, htl⟩ := (layer_list_spec cx post
      (emitD st (png_not_found_diag cx (.s n))) out).2
    rw [htl]
    simp [emitD]
  | cons v vs ih =>
    intro st post out hmiss
    by_cases hobj : ∃ kvs, v = .obj kvs
    · obtain ⟨kvs, rfl⟩ := hobj
      rw [List.cons_append]
      simp only [convert_layer_list]
      obtain ⟨tlv, hvdi⟩ := (random_variations_spec cx st
        ((objGet kvs "sprite").getD .null)).2
      split
      · apply ih
        rw [variations_map_unchanged cx st ((objGet kvs "sprite").getD .null)]
        exact hmiss
      · apply ih
        rw [variations_map_unchanged cx st ((objGet kvs "sprite").getD .null)]
        exact hmiss
    · rw [List.cons_append, convert_layer_list_cons_nonobj cx st v
        (vs ++ .s n :: post) out (fun kvs hk => hobj ⟨kvs, hk⟩)]
      apply ih
      rw [append_sprite_map_unchanged cx st v out]
      exact hmiss

/-! ## Concrete demo inputs shared by witnesses and counterexamples -/

def cx_demo : ConvCtx :=
  { is_filler := false, obsolete_fillers := false
  , filepath := "pngs_tiles_32x32/thing.json", output_conf_file := "tile_config.json" }

def cx_filler_demo : ConvCtx :=
  { is_filler := true, obsolete_fillers := false
  , filepath := "pngs_filler_32x32/f.json", output_conf_file := "tile_config.json" }

def st_demo : TilesetSt :=
  { initialTilesetSt with
    pngnum := 2
  , pngname_to_pngnum := [("null_image", 0), ("grass", 1), ("dirt", 2)]
  , unreferenced_main := ["grass", "dirt"] }

/-- C5: a foreground/background reference to a name the registry does not
know is omitted entirely: a single-name layer converts to the empty list
with the non-fatal "file was not found" error naming `name.png`, the
fragment path and the output file; the same diagnostic is emitted wherever
the name occurs inside a list layer; and no placeholder index 0 (and no
unresolved name) ever appears in a converted layer. -/
theorem c5_missing_reference (cx : ConvCtx) (st : TilesetSt) (n : String)
    (hne : n ≠ "") (hmiss : (st.pngname_to_pngnum.lookup n).getD 0 = 0) :
    (convert_entry_layer cx st (.s n)).1 = [] ∧
    (convert_entry_layer cx st (.s n)).2.diags =
      st.diags ++ [png_not_found_diag cx (.s n)] ∧
    (∀ pre post out,
      png_not_found_diag cx (.s n) ∈
        (convert_layer_list cx st (pre ++ .s n :: post) out).2.diags) ∧
    (∀ layer, ∀ x ∈ (convert_entry_layer cx st layer).1, ResolvedElem x) := by
  have happ : append_sprite_index cx st (.s n) [] =
      ([], false, emitD st (png_not_found_diag cx (.s n))) := by
    simp [append_sprite_index, jTruthy, hne, hmiss]
  refine ⟨?_, ?_, ?_, ?_⟩
  · simp [convert_entry_layer, happ]
  · simp [convert_entry_layer, happ, emitD]
  · intro pre post out
    exact layer_list_missing_diag cx n hne pre st post out hmiss
  · have hsingle : ∀ v : JVal, ∀ x ∈ (append_sprite_index cx st v []).1,
        ResolvedElem x := by
      intro v x hx
      rcases append_sprite_elems cx st v [] x hx with h1 | ⟨m, hm, hm0⟩
      · exact absurd h1 (List.not_mem_nil x)
      · rw [hm]; exact hm0
    intro layer x hx
    cases layer with
    | arr parts =>
      rcases (layer_list_spec cx parts st []).1 x hx with h1 | h1
      · exact absurd h1 (List.not_mem_nil x)
      · exact h1
    | s v => exact hsingle (.s v) x hx
    | i v => exact hsingle (.i v) x hx
    | num v => exact hsingle (.num v) x hx
    | b v => exact hsingle (.b v) x hx
    | null => exact hsingle .null x hx
    | obj kvs => exact hsingle (.obj kvs) x hx

/-- C5 witness at a concrete registry: `ghost` is not registered, the
single-name layer converts to nothing with the not-found diagnostic, the
diagnostic also appears when `ghost` sits inside a list layer, and a mixed
layer converts to resolved elements only. -/
theorem c5_missing_reference_witness :
    (convert_entry_layer cx_demo st_demo (.s "ghost")).1 = [] ∧
    png_not_found_diag cx_demo (.s "ghost") ∈
      (convert_layer_list cx_demo st_demo [.s "grass", .s "ghost"] []).2.diags ∧
    ∀ x ∈ (convert_entry_layer cx_demo st_demo
        (.arr [.s "grass", .s "ghost"])).1, ResolvedElem x := by
  have h := c5_missing_reference cx_demo st_demo "ghost" (by decide) (by decide)
  exact ⟨h.1, h.2.2.1 [.s "grass"] [] [], fun x hx => h.2.2.2 _ x hx⟩

/-- C6 amended: a successful resolution removes the basename from the
unreferenced list of the *referencing* sheet's category only (`filler` for
filler sheets, `main` otherwise); the other category's list is untouched,
so a sprite registered under the other category stays recorded there.  The
removal is idempotent: erasing an absent name leaves the list unchanged
(the suppressed `ValueError`), and on duplicate-free lists the name is
gone afterwards. -/
theorem c6_mark_referenced (cx : ConvCtx) (st : TilesetSt) (n : String)
    (entry : List JVal) (hne : n ≠ "")
    (hv : (st.pngname_to_pngnum.lookup n).getD 0 ≠ 0) :
    (append_sprite_index cx st (.s n) entry).2.1 = true ∧
    (append_sprite_index cx st (.s n) entry).1 =
      entry ++ [.i ((st.pngname_to_pngnum.lookup n).getD 0)] ∧
    (cx.is_filler = true →
      (append_sprite_index cx st (.s n) entry).2.2.unreferenced_filler =
        st.unreferenced_filler.erase n ∧
      (append_sprite_index cx st (.s n) entry).2.2.unreferenced_main =
        st.unreferenced_main) ∧
    (cx.is_filler = false →
      (append_sprite_index cx st (.s n) entry).2.2.unreferenced_main =
        st.unreferenced_main.erase n ∧
      (append_sprite_index cx st (.s n) entry).2.2.unreferenced_filler =
        st.unreferenced_filler) ∧
    (cx.is_filler = false → st.unreferenced_main.Nodup →
      n ∉ (append_sprite_index cx st (.s n) entry).2.2.unreferenced_main) ∧
    (cx.is_filler = true → st.unreferenced_filler.Nodup →
      n ∉ (append_sprite_index cx st (.s n) entry).2.2.unreferenced_filler) ∧
    (cx.is_filler = false → n ∉ st.unreferenced_main →
      (append_sprite_index cx st (.s n) entry).2.2.unreferenced_main =
        st.unreferenced_main) ∧
    (cx.is_filler = true → n ∉ st.unreferenced_filler →
      (append_sprite_index cx st (.s n) entry).2.2.unreferenced_filler =
        st.unreferenced_filler) := by
  have heq : append_sprite_index cx st (.s n) entry =
      (entry ++ [.i ((st.pngname_to_pngnum.lookup n).getD 0)], true,
       if cx.is_filler then
         { st with unreferenced_filler := st.unreferenced_filler.erase n }
       else { st with unreferenced_main := st.unreferenced_main.erase n }) := by
    simp [append_sprite_index, jTruthy, hne, hv]
  rw [heq]
  refine ⟨rfl, rfl, ?_, ?_, ?_, ?_, ?_, ?_⟩
  · intro hf; simp [hf]
  · intro hf; simp [hf]
  · intro hf hnd hmem
    simp [hf] at hmem
    exact absurd ((hnd.mem_erase_iff.mp hmem).1) (by simp)
  · intro hf hnd hmem
    simp [hf] at hmem
    exact absurd ((hnd.mem_erase_iff.mp hmem).1) (by simp)
  · intro hf hmem
    simp [hf, List.erase_of_not_mem hmem]
  · intro hf hmem
    simp [hf, List.erase_of_not_mem hmem]

/-- C6 counterexample: resolving the main-registered sprite `grass` from a
*filler*-sheet tile entry succeeds, yet `grass` is still a member of the
`main` unreferenced list afterwards — the erase targets the referencing
sheet's category, not the category the sprite was registered under, so
"member of no unreferenced[category] set after any reference" is false. -/
theorem c6_cross_category_counterexample :
    (append_sprite_index cx_filler_demo st_demo (.s "grass") []).2.1 = true ∧
    "grass" ∈
      (append_sprite_index cx_filler_demo st_demo
        (.s "grass") []).2.2.unreferenced_main := by
  decide

/-- C6 witness for the amended statement at a concrete filler-sheet
resolution: success, erase on the filler list, and idempotence (the name
is absent from the filler list, which is therefore unchanged). -/
theorem c6_mark_referenced_witness :
    (append_sprite_index cx_filler_demo st_demo (.s "grass") []).2.1 = true ∧
    (append_sprite_index cx_filler_demo st_demo
      (.s "grass") []).2.2.unreferenced_filler =
        st_demo.unreferenced_filler.erase "grass" ∧
    (append_sprite_index cx_filler_demo st_demo
      (.s "grass") []).2.2.unreferenced_filler = st_demo.unreferenced_filler := by
  have h := c6_mark_referenced cx_filler_demo st_demo "grass" [] (by decide) (by decide)
  exact ⟨h.1, (h.2.2.1 rfl).1, h.2.2.2.2.2.2.2 rfl (by decide)⟩

/-! ## Preservation of the reserved `null_image` mapping through Indexing -/

theorem sheet_step_lookup_preserved (obsF : Bool) (d : TreeDefaults)
    (content : String → String → List JVal) (addedNull : Bool) (off : Int)
    (st : TilesetSt) (nm : String) (sp : SheetSpecs) (files : SheetFiles)
    (k : String) (v : Int) (h : st.pngname_to_pngnum.lookup k = some v) :
    (sheet_step obsF d content addedNull off st nm sp files).2.pngname_to_pngnum.lookup k
      = some v :=
  foldpng_lookup_preserved obsF _ _ st k v h

theorem index_sheets_lookup_preserved (obsF : Bool) (d : TreeDefaults)
    (content : String → String → List JVal)
    (sheets : List (String × SheetSpecs × SheetFiles)) :
    ∀ (st : TilesetSt) (addedNull : Bool) (off : Int) (k : String) (v : Int),
      st.pngname_to_pngnum.lookup k = some v →
      (index_sheets obsF d content st addedNull off sheets).2.pngname_to_pngnum.lookup k
        = some v := by
  induction sheets with
  | nil => intro st _ _ k v h; simpa [index_sheets] using h
  | cons x rest ih =>
    intro st addedNull off k v h
    obtain ⟨nm, sp, files⟩ := x
    simp only [index_sheets]
    exact ih _ true 0 k v
      (sheet_step_lookup_preserved obsF d content addedNull off st nm sp files k v h)

/-- C10: the name `null_image` is pre-mapped to the reserved index 0 by
`Tileset.__init__`, before any scanning; consequently (b) a source file
`null_image.png` always takes the duplicate branch on a non-filler sheet —
the registry is unchanged, no index is assigned, and the duplicate-name
error is emitted; (c) a tile-entry reference to `null_image` resolves to
the falsy index 0 and is handled as "file not found": nothing is appended
and the not-found error is emitted; (d) the reserved mapping survives the
whole indexing phase, so this holds in every run. -/
theorem c10_null_image_reserved :
    initialTilesetSt.pngname_to_pngnum.lookup "null_image" = some 0 ∧
    (∀ (obsF : Bool) (st : TilesetSt) (dir : String) (i : Int),
      st.pngname_to_pngnum.lookup "null_image" = some i →
      (process_png_filename obsF false st dir "null_image.png").pngname_to_pngnum
        = st.pngname_to_pngnum ∧
      (process_png_filename obsF false st dir "null_image.png").pngnum = st.pngnum ∧
      (process_png_filename obsF false st dir "null_image.png").diags =
        st.diags ++
          [{ level := .error, sigType := .errorMessage
           , message := "Duplicate root name for ID \x7b\x7d: \x7b\x7d."
           , args := [.s "null_image", .s (pathStr dir "null_image.png")]
           , msgType := some .errDuplicateName }]) ∧
    (∀ (cx : ConvCtx) (st : TilesetSt) (entry : List JVal),
      st.pngname_to_pngnum.lookup "null_image" = some 0 →
      append_sprite_index cx st (.s "null_image") entry =
        (entry, false, emitD st (png_not_found_diag cx (.s "null_image")))) ∧
    (∀ (obsF : Bool) (d : TreeDefaults)
       (content : String → String → List JVal)
       (sheets : List (String × SheetSpecs × SheetFiles)),
      (index_sheets obsF d content initialTilesetSt false (-1)
        sheets).2.pngname_to_pngnum.lookup "null_image" = some 0) := by
  have hstem : pyStem "null_image.png" = "null_image" := by decide
  refine ⟨by decide, ?_, ?_, ?_⟩
  · intro obsF st dir i h
    have hd := process_png_dup_state obsF false st dir "null_image.png" i
      (by rw [hstem]; exact h)
    refine ⟨hd.2.1, hd.1, ?_⟩
    simp [process_png_filename, hstem, h, emitD]
  · intro cx st entry h
    simp [append_sprite_index, jTruthy, h]
  · intro obsF d content sheets
    exact index_sheets_lookup_preserved obsF d content sheets initialTilesetSt
      false (-1) "null_image" 0 (by decide)

/-- C10 witness: at a concrete registry a `null_image.png` source file
leaves the counter untouched, and a concrete `null_image` reference is
rejected with the not-found error. -/
theorem c10_null_image_witness :
    (process_png_filename false false st_demo "d" "null_image.png").pngnum =
      st_demo.pngnum ∧
    append_sprite_index cx_demo st_demo (.s "null_image") [] =
      ([], false, emitD st_demo (png_not_found_diag cx_demo (.s "null_image"))) := by
  have h := c10_null_image_reserved
  exact ⟨(h.2.1 false st_demo "d" 0 (by decide)).2.1,
    h.2.2.1 cx_demo st_demo [] (by decide)⟩

/-! ## C3: the duplicate-id removal loop -/

def st_dupids : TilesetSt :=
  { initialTilesetSt with
    pngnum := 1
  , pngname_to_pngnum := [("null_image", 0), ("spr", 1)]
  , processed_ids := ["x", "y"] }

def entry_dupids : JVal := .obj [("id", .arr [.s "x", .s "y"]), ("fg", .s "spr")]

/-- C3 (code bug): an entry whose ids `["x", "y"]` are BOTH already in the
global processed-ids set is nevertheless returned, with `"y"` as its
surviving id and only one duplicate-id diagnostic (for `"x"`).  The
`entry_ids.remove` inside the `for entry_ids` loop shifts `"y"` under the
advancing cursor, so its collision is never examined — contradicting the
documented intent ("Remember processed IDs and remove duplicates") and the
claim that every already-processed id is dropped and an id-less entry is
discarded. -/
theorem c3_dedup_cursor_skip :
    "y" ∈ st_dupids.processed_ids ∧
    (convertTop cx_demo st_dupids entry_dupids).2.1 = true ∧
    (convertTop cx_demo st_dupids entry_dupids).1 =
      .obj [("id", .s "y"), ("fg", .i 1)] ∧
    (convertTop cx_demo st_dupids entry_dupids).2.2.diags.countP
      (fun dg => dg.msgType = some MsgType.errDuplicateId) = 1 := by
  decide

/-! ## C8: cancellation signalling -/

/-- C8: `StopComposing` is a different exception type from
`ComposingException`; a run whose abort flag is set unwinds through
`check_abort` with `StopComposing`, and `ComposeRunner.run` reports it as
the single info-level FINISHED "Composing aborted." event — never at
error or critical severity, and never on the error/critical channels. -/
theorem c8_cancellation (m : String) (rest : Option RunExc) :
    RunExc.stopComposing ≠ RunExc.composingExc m ∧
    check_abort true = some RunExc.stopComposing ∧
    check_abort false = none ∧
    runner_run true rest =
      [{ level := .info, sigType := .finished, message := "Composing aborted."
       , args := [], msgType := none }] ∧
    (∀ d ∈ runner_run true rest,
      d.level = .info ∧ d.level ≠ .error ∧ d.level ≠ .critical ∧
      d.sigType ≠ .errorMessage ∧ d.sigType ≠ .criticalMessage) := by
  refine ⟨fun h => RunExc.noConfusion h, rfl, rfl, rfl, ?_⟩
  intro d hd
  have hd2 : d =
      { level := .info, sigType := .finished, message := "Composing aborted."
      , args := [], msgType := none } := by
    simpa [runner_run, compose_outcome, check_abort, run_outcome_diags] using hd
  subst hd2
  exact ⟨rfl, by decide, by decide, by decide, by decide⟩

/-! ## C9: the sheet composer -/

def sheet_demo : SheetM :=
  { name := "tiles.png", sprite_width := .i 32, sprite_height := .i 32
  , offset_x := .i 0, offset_y := .i 0, offset_x_retracted := .i 0
  , offset_y_retracted := .i 0, pixelscale := .num "1.0", sprites_across := 16
  , is_fallback := false, is_filler := false, json_files := [], png_files := []
  , tile_entries := [], sprites := [some ("d", "a.png")]
  , first_index := 1, max_index := 15 }

/-- The literal reading of C9 as a statement about `write_composite_png`:
no pixel buffers → returns false and writes nothing; buffers present →
packs, writes the output file and returns true. -/
def C9Statement : Prop :=
  ∀ (only_json palette palette_copies : Bool) (sheet : SheetM),
    (sheet.sprites = [] →
      (write_composite_png only_json palette palette_copies sheet).ret = false ∧
      (write_composite_png only_json palette palette_copies sheet).writes = []) ∧
    (sheet.sprites ≠ [] →
      (write_composite_png only_json palette palette_copies sheet).ret = true ∧
      (write_composite_png only_json palette palette_copies sheet).writes ≠ [])

/-- C9 counterexample: with a loaded buffer but `only_json` set, the
composer returns true *without writing anything* (`if only_json: return
True` precedes every write), so "when buffers exist it writes the encoded
output file" fails as an unconditional statement. -/
theorem c9_only_json_counterexample : ¬ C9Statement := by
  intro h
  have h2 := (h true false false sheet_demo).2 (by decide)
  have h3 : (write_composite_png true false false sheet_demo).writes = [] := by
    decide
  exact h2.2 h3

/-- C9 amended: no buffers → false and nothing written; buffers present in
JSON-only mode → true and nothing written; buffers present otherwise →
true, the buffers packed into one grid at the sheet's configured width,
the output file written (palette-quantized iff `palette`), plus the
palette-quantized `…8` copy iff `palette_copies` and not `palette`. -/
theorem c9_write_composite (only_json palette palette_copies : Bool)
    (sheet : SheetM) :
    (sheet.sprites = [] →
      write_composite_png only_json palette palette_copies sheet =
        { ret := false, image := none, writes := [] }) ∧
    (sheet.sprites ≠ [] → only_json = true →
      write_composite_png only_json palette palette_copies sheet =
        { ret := true, image := none, writes := [] }) ∧
    (sheet.sprites ≠ [] → only_json = false →
      write_composite_png only_json palette palette_copies sheet =
        { ret := true
        , image := some (sheet.sprites, sheet.sprites_across)
        , writes :=
            [{ path := sheet.name, palette := palette }]
            ++ (if palette_copies ∧ ¬ palette then
                  [{ path := sheet.name ++ "8", palette := true }]
                else []) }) := by
  refine ⟨?_, ?_, ?_⟩
  · intro h1
    simp [write_composite_png, List.isEmpty_iff, h1]
  · intro h1 h2
    simp [write_composite_png, List.isEmpty_iff, h1, h2]
  · intro h1 h2
    simp [write_composite_png, List.isEmpty_iff, h1, h2]

/-- C9 witness: the amended statement at a concrete sheet with one loaded
buffer, composing mode, palette copies requested. -/
theorem c9_write_composite_witness :
    sheet_demo.sprites ≠ [] ∧
    write_composite_png false false true sheet_demo =
      { ret := true
      , image := some (sheet_demo.sprites, sheet_demo.sprites_across)
      , writes := [{ path := "tiles.png", palette := false }
                  ,{ path := "tiles.png8", palette := true }] } := by
  have h := (c9_write_composite false false true sheet_demo).2.2 (by decide) rfl
  refine ⟨by decide, ?_⟩
  rw [h]
  decide

/-! ## C7: determinism, ordering and classification of `walk_dirs` -/

/-- Canonical view of a raw walk listing: each directory paired with its
file names in sorted order.  Two runs see the same tree exactly when their
canonical listings are permutations of each other. -/
def canonListing (l : List (String × List String)) : List (String × List String) :=
  l.map (fun p => (p.1, List.insertionSort fileLe p.2))

/-- Two raw walk listings present the same directory tree: same set of
directories (each listed once — `os.walk` never repeats a root) with the
same set of file names per directory, in arbitrary enumeration order. -/
def SameListing (l1 l2 : List (String × List String)) : Prop :=
  List.Perm (canonListing l1) (canonListing l2) ∧ (l1.map Prod.fst).Nodup

/-- Strict directory order (distinct-key listings sorted by `dirLe` are
sorted by it). -/
def dirLt (a b : String × List String) : Prop := a.1.data < b.1.data

instance : IsAntisymm (String × List String) dirLt :=
  ⟨fun _ _ h1 h2 => absurd h1 (lt_asymm h2)⟩

/-- Full path order: by directory first, then by file name. -/
def pathLe (a b : String × String) : Prop :=
  a.1.data < b.1.data ∨ (a.1 = b.1 ∧ a.2.data ≤ b.2.data)

theorem str_data_inj {s t : String} (h : s.data = t.data) : s = t := by
  cases s; cases t; simp_all

/-- `walkLoop`, with the per-directory sorting factored into the
canonical listing. -/
def walkLoopC : SheetFiles → List (String × List String) → SheetFiles
  | acc, [] => acc
  | acc, p :: ps => walkLoopC (classifyFiles acc p.1 p.2) ps

theorem walkLoop_eq_canon (l : List (String × List String)) :
    ∀ acc, walkLoop acc l = walkLoopC acc (canonListing l) := by
  induction l with
  | nil => intro acc; simp [walkLoop, walkLoopC, canonListing]
  | cons p ps ih =>
    intro acc
    simp only [walkLoop, canonListing, List.map_cons, walkLoopC]
    exact ih _

theorem canon_keys (l : List (String × List String)) :
    (canonListing l).map Prod.fst = l.map Prod.fst := by
  induction l with
  | nil => rfl
  | cons p ps ih => simp [canonListing]

theorem canon_sorted_eq (l1 l2 : List (String × List String))
    (hperm : List.Perm (canonListing l1) (canonListing l2))
    (hnd : (l1.map Prod.fst).Nodup) :
    canonListing (List.insertionSort dirLe l1) =
      canonListing (List.insertionSort dirLe l2) := by
  have hnd2 : (l2.map Prod.fst).Nodup := by
    have : ((canonListing l1).map Prod.fst).Perm ((canonListing l2).map Prod.fst) :=
      hperm.map Prod.fst
    rw [canon_keys, canon_keys] at this
    exact this.nodup_iff.mp hnd
  have hchain : (canonListing (List.insertionSort dirLe l1)).Perm
      (canonListing (List.insertionSort dirLe l2)) := by
    have h1 : (canonListing (List.insertionSort dirLe l1)).Perm (canonListing l1) :=
      (List.perm_insertionSort dirLe l1).map _
    have h2 : (canonListing (List.insertionSort dirLe l2)).Perm (canonListing l2) :=
      (List.perm_insertionSort dirLe l2).map _
    exact (h1.trans hperm).trans h2.symm
  have hsortedlt : ∀ (l : List (String × List String)), (l.map Prod.fst).Nodup →
      (canonListing (List.insertionSort dirLe l)).Sorted dirLt := by
    intro l hl
    have hs : (List.insertionSort dirLe l).Sorted dirLe :=
      List.sorted_insertionSort dirLe l
    have hsc : (canonListing (List.insertionSort dirLe l)).Sorted dirLe := by
      rw [canonListing, List.Sorted, List.pairwise_map]
      exact hs
    have hndc : ((canonListing (List.insertionSort dirLe l)).map Prod.fst).Nodup := by
      rw [canon_keys]
      have : ((List.insertionSort dirLe l).map Prod.fst).Perm (l.map Prod.fst) :=
        (List.perm_insertionSort dirLe l).map _
      exact this.nodup_iff.mpr hl
    have hne : (canonListing (List.insertionSort dirLe l)).Pairwise
        (fun a b => a.1 ≠ b.1) := by
      rw [List.Nodup, List.pairwise_map] at hndc
      exact hndc
    exact (hsc.and hne).imp (fun hab =>
      lt_of_le_of_ne hab.1 (fun hdata => hab.2 (str_data_inj hdata)))
  exact List.eq_of_perm_of_sorted hchain (hsortedlt l1 hnd) (hsortedlt l2 hnd2)

theorem walk_dirs_deterministic (l1 l2 : List (String × List String))
    (h : SameListing l1 l2) : walk_dirs l1 = walk_dirs l2 := by
  unfold walk_dirs
  rw [walkLoop_eq_canon, walkLoop_eq_canon, canon_sorted_eq l1 l2 h.1 h.2]

/-- The files of one directory that `classifyFiles` appends for a given
suffix. -/
def fileBlock (pred : String → Bool) (p : String × List String) :
    List (String × String) :=
  (p.2.filter pred).map (fun f => (p.1, f))

def isJsonName (f : String) : Bool := pySuffixes f = [".json"]

def isPngName (f : String) : Bool := pySuffixes f = [".png"]

theorem json_png_disjoint (f : String) (h : isJsonName f = true) :
    isPngName f = false := by
  simp only [isJsonName, decide_eq_true_eq] at h
  simp [isPngName, h]

theorem classifyFiles_spec (d : String) (fs : List String) : ∀ acc,
    classifyFiles acc d fs =
      { json_files := acc.json_files ++ fileBlock isJsonName (d, fs)
      , png_files := acc.png_files ++ fileBlock isPngName (d, fs) } := by
  induction fs with
  | nil => intro acc; simp [classifyFiles, fileBlock]
  | cons f fs ih =>
    intro acc
    simp only [classifyFiles]
    by_cases hj : pySuffixes f = [".json"]
    · have hj2 : isJsonName f = true := by simp [isJsonName, hj]
      have hp2 : isPngName f = false := json_png_disjoint f hj2
      rw [if_pos hj, ih]
      simp [fileBlock, hj2, hp2, List.filter_cons]
    · rw [if_neg hj]
      have hj2 : isJsonName f = false := by simp [isJsonName, hj]
      by_cases hp : pySuffixes f = [".png"]
      · have hp2 : isPngName f = true := by simp [isPngName, hp]
        rw [if_pos hp, ih]
        simp [fileBlock, hj2, hp2, List.filter_cons]
      · have hp2 : isPngName f = false := by simp [isPngName, hp]
        rw [if_neg hp, ih]
        simp [fileBlock, hj2, hp2, List.filter_cons]

theorem walkLoopC_spec (l : List (String × List String)) : ∀ acc,
    walkLoopC acc l =
      { json_files := acc.json_files ++ l.flatMap (fileBlock isJsonName)
      , png_files := acc.png_files ++ l.flatMap (fileBlock isPngName) } := by
  induction l with
  | nil => intro acc; simp [walkLoopC]
  | cons p ps ih =>
    intro acc
    simp only [walkLoopC, List.flatMap_cons]
    rw [classifyFiles_spec p.1 p.2 acc, ih]
    simp

theorem walk_dirs_spec (l : List (String × List String)) :
    walk_dirs l =
      { json_files := (canonListing (List.insertionSort dirLe l)).flatMap
          (fileBlock isJsonName)
      , png_files := (canonListing (List.insertionSort dirLe l)).flatMap
          (fileBlock isPngName) } := by
  unfold walk_dirs
  rw [walkLoop_eq_canon, walkLoopC_spec]
  simp

theorem sorted_flatMap_blocks (pred : String → Bool)
    (L : List (String × List String)) (hdir : L.Sorted dirLt)
    (hfiles : ∀ p ∈ L, p.2.Sorted fileLe) :
    (L.flatMap (fileBlock pred)).Sorted pathLe := by
  induction L with
  | nil => simp [List.Sorted]
  | cons p ps ih =>
    simp only [List.flatMap_cons]
    rw [List.Sorted, List.pairwise_append]
    obtain ⟨hhead, htail⟩ := List.pairwise_cons.mp hdir
    refine ⟨?_, ih htail (fun q hq => hfiles q (List.mem_cons_of_mem p hq)), ?_⟩
    · have hsf : (p.2.filter pred).Pairwise fileLe :=
        List.Pairwise.sublist (List.filter_sublist p.2)
          (hfiles p (List.mem_cons_self p ps))
      rw [fileBlock, List.pairwise_map]
      exact hsf.imp (fun hab => Or.inr ⟨rfl, hab⟩)
    · intro x hx y hy
      obtain ⟨fx, _, hfx⟩ := List.mem_map.mp hx
      obtain ⟨q, hq, hyq⟩ := List.mem_flatMap.mp hy
      obtain ⟨fy, _, hfy⟩ := List.mem_map.mp hyq
      left
      rw [← hfx, ← hfy]
      exact hhead q hq

theorem walk_dirs_sorted (l : List (String × List String))
    (hnd : (l.map Prod.fst).Nodup) :
    (walk_dirs l).json_files.Sorted pathLe ∧
    (walk_dirs l).png_files.Sorted pathLe := by
  have hdir : (canonListing (List.insertionSort dirLe l)).Sorted dirLt := by
    have hs : (List.insertionSort dirLe l).Sorted dirLe :=
      List.sorted_insertionSort dirLe l
    have hsc : (canonListing (List.insertionSort dirLe l)).Sorted dirLe := by
      rw [canonListing, List.Sorted, List.pairwise_map]
      exact hs
    have hndc : ((canonListing (List.insertionSort dirLe l)).map Prod.fst).Nodup := by
      rw [canon_keys]
      exact ((List.perm_insertionSort dirLe l).map Prod.fst).nodup_iff.mpr hnd
    have hne : (canonListing (List.insertionSort dirLe l)).Pairwise
        (fun a b => a.1 ≠ b.1) := by
      rw [List.Nodup, List.pairwise_map] at hndc
      exact hndc
    exact (hsc.and hne).imp (fun hab =>
      lt_of_le_of_ne hab.1 (fun hdata => hab.2 (str_data_inj hdata)))
  have hfiles : ∀ p ∈ canonListing (List.insertionSort dirLe l),
      p.2.Sorted fileLe := by
    intro p hp
    obtain ⟨q, _, hq⟩ := List.mem_map.mp hp
    rw [← hq]
    exact List.sorted_insertionSort fileLe q.2
  rw [walk_dirs_spec]
  exact ⟨sorted_flatMap_blocks isJsonName _ hdir hfiles,
    sorted_flatMap_blocks isPngName _ hdir hfiles⟩

theorem walk_dirs_classification (l : List (String × List String)) (d f : String) :
    ((d, f) ∈ (walk_dirs l).json_files → pySuffixes f = [".json"]) ∧
    ((d, f) ∈ (walk_dirs l).png_files → pySuffixes f = [".png"]) := by
  rw [walk_dirs_spec]
  constructor <;> intro hm <;>
    obtain ⟨p, _, hp⟩ := List.mem_flatMap.mp hm <;>
    obtain ⟨g, hg, hgf⟩ := List.mem_map.mp hp
  · have : g = f := congrArg Prod.snd hgf
    subst this
    simpa [isJsonName] using (List.mem_filter.mp hg).2
  · have : g = f := congrArg Prod.snd hgf
    subst this
    simpa [isPngName] using (List.mem_filter.mp hg).2

/-- C7: (i) the collected file lists are a deterministic function of the
directory tree — any two enumeration orders of the same tree produce
identical `json_files` and `png_files`; (ii) both lists are sorted by
directory path first and file name second; (iii) a file is classified only
when its suffix list is exactly the one recognized suffix (so a name with
extra dot-suffixes such as `a.b.png` is silently skipped). -/
theorem c7_walk_dirs_order (l1 l2 : List (String × List String))
    (hsame : SameListing l1 l2) :
    walk_dirs l1 = walk_dirs l2 ∧
    (walk_dirs l1).json_files.Sorted pathLe ∧
    (walk_dirs l1).png_files.Sorted pathLe ∧
    (∀ d f, ((d, f) ∈ (walk_dirs l1).json_files → pySuffixes f = [".json"]) ∧
            ((d, f) ∈ (walk_dirs l1).png_files → pySuffixes f = [".png"])) :=
  ⟨walk_dirs_deterministic l1 l2 hsame,
   (walk_dirs_sorted l1 hsame.2).1,
   (walk_dirs_sorted l1 hsame.2).2,
   fun d f => walk_dirs_classification l1 d f⟩

def listing_demo_1 : List (String × List String) :=
  [("pngs/a", ["y.png", "x.png", "a.b.png", "t.json"]), ("pngs/b", ["z.png"])]

def listing_demo_2 : List (String × List String) :=
  [("pngs/b", ["z.png"]), ("pngs/a", ["x.png", "a.b.png", "t.json", "y.png"])]

/-- C7 witness: two concrete enumerations of the same tree (directories
and file names listed in different orders) produce identical classified
lists, and the double-suffixed `a.b.png` is classified as neither JSON nor
PNG. -/
theorem c7_walk_dirs_order_witness :
    SameListing listing_demo_1 listing_demo_2 ∧
    walk_dirs listing_demo_1 = walk_dirs listing_demo_2 ∧
    ("pngs/a", "a.b.png") ∉ (walk_dirs listing_demo_1).json_files ∧
    ("pngs/a", "a.b.png") ∉ (walk_dirs listing_demo_1).png_files := by
  have hsame : SameListing listing_demo_1 listing_demo_2 := ⟨by decide, by decide⟩
  have h := c7_walk_dirs_order listing_demo_1 listing_demo_2 hsame
  refine ⟨hsame, h.1, ?_, ?_⟩
  · intro hm
    exact absurd ((h.2.2.2 "pngs/a" "a.b.png").1 hm) (by decide)
  · intro hm
    exact absurd ((h.2.2.2 "pngs/a" "a.b.png").2 hm) (by decide)

/-! ## C1: the per-sheet index ranges after the Indexing phase -/

def rangesOf (shs : List SheetM) : List (Int × Int) :=
  shs.map (fun s => (s.first_index, s.max_index))

/-- The ranges `rs` tile the interval `(a, b]` in order: each range starts
one past the running boundary, ends no earlier than the boundary it
started from, and the last boundary is `b`. -/
def Boundaries : List (Int × Int) → Int → Int → Prop
  | [], a, b => a = b
  | r :: rs, a, b => r.1 = a + 1 ∧ a ≤ r.2 ∧ Boundaries rs r.2 b

/-- Consecutive ranges are adjacent: each `first_index` is one past the
previous `max_index`. -/
def chainedRanges : List (Int × Int) → Prop
  | [] => True
  | [_] => True
  | a :: b :: rest => b.1 = a.2 + 1 ∧ chainedRanges (b :: rest)

theorem boundaries_le (rs : List (Int × Int)) :
    ∀ a b, Boundaries rs a b → a ≤ b := by
  induction rs with
  | nil => intro a b h; simp only [Boundaries] at h; omega
  | cons r rest ih =>
    intro a b h
    obtain ⟨_, h2, h3⟩ := h
    have := ih r.2 b h3
    omega

theorem boundaries_bounds (rs : List (Int × Int)) :
    ∀ a b, Boundaries rs a b → ∀ q ∈ rs, a + 1 ≤ q.1 ∧ q.2 ≤ b := by
  induction rs with
  | nil => intro a b _ q hq; exact absurd hq (List.not_mem_nil q)
  | cons r rest ih =>
    intro a b h q hq
    obtain ⟨h1, h2, h3⟩ := h
    rcases List.mem_cons.mp hq with rfl | hq2
    · exact ⟨by omega, boundaries_le rest q.2 b h3⟩
    · have h4 := ih r.2 b h3 q hq2
      omega

theorem boundaries_covers (rs : List (Int × Int)) :
    ∀ a b, Boundaries rs a b →
      ∀ k : Int, (a + 1 ≤ k ∧ k ≤ b) ↔ ∃ r ∈ rs, r.1 ≤ k ∧ k ≤ r.2 := by
  induction rs with
  | nil =>
    intro a b h k
    simp only [Boundaries] at h
    subst h
    simp only [List.not_mem_nil, false_and, exists_false, iff_false,
      not_and, not_le]
    omega
  | cons r rest ih =>
    intro a b h k
    obtain ⟨h1, h2, h3⟩ := h
    have hle := boundaries_le rest r.2 b h3
    have ihk := ih r.2 b h3 k
    constructor
    · rintro ⟨hk1, hk2⟩
      by_cases hc : k ≤ r.2
      · exact ⟨r, List.mem_cons_self r rest, by omega⟩
      · obtain ⟨q, hq, hql⟩ := ihk.mp (by omega)
        exact ⟨q, List.mem_cons_of_mem r hq, hql⟩
    · rintro ⟨q, hq, hq1, hq2⟩
      rcases List.mem_cons.mp hq with rfl | hq3
      · omega
      · have h4 := boundaries_bounds rest r.2 b h3 q hq3
        omega

theorem boundaries_pairwise (rs : List (Int × Int)) :
    ∀ a b, Boundaries rs a b → rs.Pairwise (fun x y => x.2 < y.1) := by
  induction rs with
  | nil => intro a b _; exact List.Pairwise.nil
  | cons r rest ih =>
    intro a b h
    obtain ⟨h1, h2, h3⟩ := h
    refine List.pairwise_cons.mpr ⟨?_, ih r.2 b h3⟩
    intro q hq
    have := boundaries_bounds rest r.2 b h3 q hq
    omega

theorem boundaries_chained (rs : List (Int × Int)) :
    ∀ a b, Boundaries rs a b → chainedRanges rs := by
  induction rs with
  | nil => intro a b _; trivial
  | cons r rest ih =>
    intro a b h
    obtain ⟨h1, h2, h3⟩ := h
    cases rest with
    | nil => trivial
    | cons r2 rest2 =>
      obtain ⟨h4, h5, h6⟩ := h3
      exact ⟨by omega, ih r.2 b ⟨h4, h5, h6⟩⟩

/-- `sheet_step` projections: the recorded range boundaries. -/
theorem sheet_step_first_max (obsF : Bool) (d : TreeDefaults)
    (content : String → String → List JVal) (addedNull : Bool) (off : Int)
    (st : TilesetSt) (nm : String) (sp : SheetSpecs) (files : SheetFiles) :
    (sheet_step obsF d content addedNull off st nm sp files).1.first_index =
      st.pngnum + 1 ∧
    (sheet_step obsF d content addedNull off st nm sp files).1.max_index =
      (sheet_step obsF d content addedNull off st nm sp files).2.pngnum ∧
    (sheet_step obsF d content addedNull off st nm sp files).1.sprites =
      (if ¬ addedNull then [none] else []) ++
        (if sp.fallback then [] else files.png_files).map some :=
  ⟨rfl, rfl, rfl⟩

theorem sheet_step_pngnum_eq (obsF : Bool) (d : TreeDefaults)
    (content : String → String → List JVal) (addedNull : Bool) (off : Int)
    (st : TilesetSt) (nm : String) (sp : SheetSpecs) (files : SheetFiles) :
    (sheet_step obsF d content addedNull off st nm sp files).2.pngnum =
      ((if sp.fallback then [] else files.png_files).foldl
        (fun s p => process_png_filename obsF (!sp.fallback && sp.filler) s p.1 p.2)
        st).pngnum
      + (resolvedAcross sp -
          (if ((if sp.fallback then [] else files.png_files).length : Int) %
                resolvedAcross sp = 0
           then resolvedAcross sp
           else ((if sp.fallback then [] else files.png_files).length : Int) %
                  resolvedAcross sp))
      + off := rfl

theorem sheet_step_pngnum_le (obsF : Bool) (d : TreeDefaults)
    (content : String → String → List JVal) (addedNull : Bool)
    (st : TilesetSt) (nm : String) (sp : SheetSpecs) (files : SheetFiles)
    (ha : 1 ≤ resolvedAcross sp) :
    st.pngnum ≤ (sheet_step obsF d content addedNull 0 st nm sp files).2.pngnum := by
  rw [sheet_step_pngnum_eq]
  have h1 := foldpng_pngnum_ge obsF (!sp.fallback && sp.filler)
    (if sp.fallback then [] else files.png_files) st
  have h2 := pad_diff_nonneg
    ((if sp.fallback then [] else files.png_files).length : Int)
    (resolvedAcross sp) ha
  omega

theorem index_sheets_boundaries (obsF : Bool) (d : TreeDefaults)
    (content : String → String → List JVal)
    (sheets : List (String × SheetSpecs × SheetFiles)) :
    ∀ st : TilesetSt, (∀ x ∈ sheets, 1 ≤ resolvedAcross x.2.1) →
      Boundaries (rangesOf (index_sheets obsF d content st true 0 sheets).1)
        st.pngnum (index_sheets obsF d content st true 0 sheets).2.pngnum := by
  induction sheets with
  | nil =>
    intro st _
    simp only [index_sheets, rangesOf, List.map_nil, Boundaries]
  | cons x rest ih =>
    intro st ha
    obtain ⟨nm, sp, files⟩ := x
    simp only [index_sheets, rangesOf, List.map_cons]
    refine ⟨?_, ?_, ?_⟩
    · exact (sheet_step_first_max obsF d content true 0 st nm sp files).1
    · rw [(sheet_step_first_max obsF d content true 0 st nm sp files).2.1]
      exact sheet_step_pngnum_le obsF d content true st nm sp files
        (ha (nm, sp, files) (List.mem_cons_self _ _))
    · rw [(sheet_step_first_max obsF d content true 0 st nm sp files).2.1]
      exact ih (sheet_step obsF d content true 0 st nm sp files).2
        (fun y hy => ha y (List.mem_cons_of_mem _ hy))

/-- Total number of synthetic null placeholder cells across all sheets. -/
def nullCells (shs : List SheetM) : Nat :=
  (shs.map (fun s => s.sprites.countP (fun c => c.isNone))).sum

theorem countP_none_map_some (l : List (String × String)) :
    (l.map some).countP (fun c => c.isNone) = 0 := by
  induction l with
  | nil => rfl
  | cons x xs ih => simp [List.countP_cons, ih]

theorem index_sheets_no_null (obsF : Bool) (d : TreeDefaults)
    (content : String → String → List JVal)
    (sheets : List (String × SheetSpecs × SheetFiles)) :
    ∀ st : TilesetSt,
      ∀ s ∈ (index_sheets obsF d content st true 0 sheets).1,
        s.sprites.countP (fun c => c.isNone) = 0 := by
  induction sheets with
  | nil => intro st s hs; simp [index_sheets] at hs
  | cons x rest ih =>
    intro st s hs
    obtain ⟨nm, sp, files⟩ := x
    simp only [index_sheets] at hs
    rcases List.mem_cons.mp hs with rfl | hs2
    · rw [(sheet_step_first_max obsF d content true 0 st nm sp files).2.2]
      simp [countP_none_map_some]
    · exact ih (sheet_step obsF d content true 0 st nm sp files).2 s hs2

/-- The literal reading of C1 for a full indexing phase on `sheets`: the
recorded `[first_index, max_index]` ranges cover `[1, next_index]` exactly
and without overlap, consecutive ranges are adjacent, the first range
starts at 1, index 0 belongs to `null_image`, and the synthetic null
placeholder cell occurs exactly once — as the very first cell of the very
first sheet. -/
def C1Statement (obsF : Bool) (d : TreeDefaults)
    (content : String → String → List JVal)
    (sheets : List (String × SheetSpecs × SheetFiles)) : Prop :=
  let r := index_sheets obsF d content initialTilesetSt false (-1) sheets
  (∀ k : Int, (1 ≤ k ∧ k ≤ r.2.pngnum) ↔
    ∃ pr ∈ rangesOf r.1, pr.1 ≤ k ∧ k ≤ pr.2) ∧
  (rangesOf r.1).Pairwise (fun x y => x.2 < y.1) ∧
  chainedRanges (rangesOf r.1) ∧
  (∀ s0, r.1.head? = some s0 → s0.first_index = 1) ∧
  r.2.pngname_to_pngnum.lookup "null_image" = some 0 ∧
  (sheets ≠ [] → nullCells r.1 = 1 ∧
    (∀ s0, r.1.head? = some s0 → s0.sprites.head? = some none))

def bad_sheets : List (String × SheetSpecs × SheetFiles) :=
  [("empty.png", {}, ⟨[], []⟩), ("b.png", {}, ⟨[], [("d", "a.png")]⟩)]

/-- C1 counterexample: when the first configured sheet contributes no
sprite file, the one-shot −1 offset drives `pngnum` to −1, the second
sheet's range becomes `[0, 15]`, and the ranges no longer cover
`[1, next_index]`: index 0 — reserved for the null placeholder — falls
inside the second sheet's range. -/
theorem c1_empty_first_sheet_counterexample :
    ¬ C1Statement false {} (fun _ _ => []) bad_sheets := by
  intro h
  have h0 := (h.1 0).mpr ⟨(0, 15), by decide, by decide⟩
  omega

/-- C1 amended: provided every sheet's grid width is at least 1 and the
first sheet still owns a nonnegative `max_index` after the −1 offset
(true whenever it contains at least one sprite file), the per-sheet ranges
partition `[1, next_index]` with no gaps or overlaps, each `first_index`
is one past the previous `max_index`, the first range starts at 1, index 0
stays reserved for `null_image`, and the null placeholder cell appears
exactly once, at the very start of the very first sheet. -/
theorem c1_partition (obsF : Bool) (d : TreeDefaults)
    (content : String → String → List JVal)
    (sheets : List (String × SheetSpecs × SheetFiles))
    (ha : ∀ x ∈ sheets, 1 ≤ resolvedAcross x.2.1)
    (h0 : ((index_sheets obsF d content initialTilesetSt false (-1)
      sheets).1.head?.all (fun s => decide (0 ≤ s.max_index))) = true) :
    C1Statement obsF d content sheets := by
  cases sheets with
  | nil =>
    refine ⟨?_, ?_, ?_, ?_, by rfl, fun hne => absurd rfl hne⟩
    · intro k
      simp only [index_sheets, rangesOf, List.map_nil, List.not_mem_nil,
        false_and, exists_false, iff_false, not_and, not_le]
      intro h1
      have h2 : initialTilesetSt.pngnum = 0 := rfl
      omega
    · simp [index_sheets, rangesOf]
    · simp only [index_sheets, rangesOf, List.map_nil]
      trivial
    · intro s0 hs
      simp [index_sheets] at hs
  | cons x rest =>
    obtain ⟨nm, sp, files⟩ := x
    have hb : Boundaries
        (rangesOf ((index_sheets obsF d content initialTilesetSt false (-1)
          ((nm, sp, files) :: rest)).1))
        0
        (index_sheets obsF d content initialTilesetSt false (-1)
          ((nm, sp, files) :: rest)).2.pngnum := by
      simp only [index_sheets, rangesOf, List.map_cons]
      have hmax0 : 0 ≤ (sheet_step obsF d content false (-1) initialTilesetSt
          nm sp files).1.max_index := by
        simp only [index_sheets] at h0
        simp at h0
        exact h0
      refine ⟨?_, hmax0, ?_⟩
      · exact (sheet_step_first_max obsF d content false (-1) initialTilesetSt
          nm sp files).1
      · rw [(sheet_step_first_max obsF d content false (-1) initialTilesetSt
          nm sp files).2.1]
        exact index_sheets_boundaries obsF d content rest
          (sheet_step obsF d content false (-1) initialTilesetSt nm sp files).2
          (fun y hy => ha y (List.mem_cons_of_mem _ hy))
    refine ⟨?_, ?_, ?_, ?_, ?_, ?_⟩
    · intro k
      have := boundaries_covers _ 0 _ hb k
      simpa using this
    · exact boundaries_pairwise _ 0 _ hb
    · exact boundaries_chained _ 0 _ hb
    · intro s0 hs
      simp only [index_sheets, List.head?_cons, Option.some.injEq] at hs
      rw [← hs]
      exact (sheet_step_first_max obsF d content false (-1) initialTilesetSt
        nm sp files).1
    · exact index_sheets_lookup_preserved obsF d content _ initialTilesetSt
        false (-1) "null_image" 0 (by decide)
    · intro _
      constructor
      · simp only [index_sheets, nullCells, List.map_cons, List.sum_cons]
        have h1 : (sheet_step obsF d content false (-1) initialTilesetSt
            nm sp files).1.sprites.countP (fun c => c.isNone) = 1 := by
          rw [(sheet_step_first_max obsF d content false (-1) initialTilesetSt
            nm sp files).2.2]
          simp [List.countP_cons, countP_none_map_some]
        have h2 : ∀ s ∈ (index_sheets obsF d content
            (sheet_step obsF d content false (-1) initialTilesetSt nm sp files).2
            true 0 rest).1, s.sprites.countP (fun c => c.isNone) = 0 :=
          index_sheets_no_null obsF d content rest _
        rw [h1]
        have h3 : ((index_sheets obsF d content
            (sheet_step obsF d content false (-1) initialTilesetSt nm sp files).2
            true 0 rest).1.map (fun s => s.sprites.countP (fun c => c.isNone))).sum
            = 0 := by
          rw [List.sum_eq_zero]
          intro m hm
          obtain ⟨s, hs, hsm⟩ := List.mem_map.mp hm
          rw [← hsm]
          exact h2 s hs
        omega
      · intro s0 hs
        simp only [index_sheets, List.head?_cons, Option.some.injEq] at hs
        rw [← hs,
          (sheet_step_first_max obsF d content false (-1) initialTilesetSt
            nm sp files).2.2]
        rfl

def good_sheets : List (String × SheetSpecs × SheetFiles) :=
  [("tiles.png", {}, ⟨[("d", "t.json")], [("d", "a.png"), ("d", "b.png")]⟩)
  ,("more.png", {}, ⟨[], [("d2", "c.png")]⟩)]

/-- C1 witness: a two-sheet run (two sprites, then one sprite, default
grid width 16) satisfies the hypotheses and hence the full partition
statement. -/
theorem c1_partition_witness :
    (∀ x ∈ good_sheets, 1 ≤ resolvedAcross x.2.1) ∧
    C1Statement false {} (fun _ _ => []) good_sheets :=
  ⟨by decide, c1_partition false {} (fun _ _ => []) good_sheets (by decide)
    (by decide)⟩

/-! ## C2: determinism of the merged configuration document -/

/-- Two runs see the same unchanged input tree: identical tileset-wide
defaults, identical fragment contents, and per-sheet identical name and
specs with the same directory tree (listed in possibly different
enumeration orders — the run-to-run nondeterminism of `os.walk`). -/
def SameTree (t1 t2 : TreeIn) : Prop :=
  t1.defaults = t2.defaults ∧ t1.content = t2.content ∧
  List.Forall₂ (fun a b => a.name = b.name ∧ a.specs = b.specs ∧
    SameListing a.listing b.listing) t1.sheets t2.sheets

theorem sheetKey_eq_of_same (a b : SheetIn)
    (h : a.name = b.name ∧ a.specs = b.specs ∧ SameListing a.listing b.listing) :
    sheetKey a = sheetKey b := by
  unfold sheetKey
  rw [h.1, h.2.1, walk_dirs_deterministic a.listing b.listing h.2.2]

theorem sheets_keys_eq (l1 l2 : List SheetIn)
    (h : List.Forall₂ (fun a b => a.name = b.name ∧ a.specs = b.specs ∧
      SameListing a.listing b.listing) l1 l2) :
    l1.map sheetKey = l2.map sheetKey := by
  induction h with
  | nil => rfl
  | cons hab htl ih => simp [List.map_cons, sheetKey_eq_of_same _ _ hab, ih]

/-- C2: with auto-fill disabled, two runs of the pipeline over the same
unchanged input tree — regardless of the enumeration order in which the
directory walk presents it — serialize byte-identical merged configuration
documents.  The merged document is a function of the input tree alone: the
walk output is canonicalized by sorting, everything downstream of it is
deterministic, and the parallel image-composition phase starts only after
the document is written and never touches it. -/
theorem c2_merged_doc_deterministic (fl : ComposeFlags) (t1 t2 : TreeIn)
    (_hnu : fl.no_use_all = true) (h : SameTree t1 t2) :
    mergedDocBytes fl t1 = mergedDocBytes fl t2 := by
  unfold mergedDocBytes mergedDoc
  rw [h.1, h.2.1, sheets_keys_eq t1.sheets t2.sheets h.2.2]

def demo_content : String → String → List JVal := fun d f =>
  if d = "pngs/a" ∧ f = "t.json" then
    [.obj [("id", .s "x"), ("fg", .s "x")]]
  else []

def tree_demo_1 : TreeIn :=
  { defaults := {}, content := demo_content
  , sheets := [{ name := "tiles.png", specs := {}, listing := listing_demo_1 }] }

def tree_demo_2 : TreeIn :=
  { defaults := {}, content := demo_content
  , sheets := [{ name := "tiles.png", specs := {}, listing := listing_demo_2 }] }

/-- C2 witness: two concrete enumerations of the same one-sheet tree (the
walk yields the directories and file names in different orders) produce
byte-identical merged documents under `no_use_all`. -/
theorem c2_merged_doc_deterministic_witness :
    SameTree tree_demo_1 tree_demo_2 ∧
    mergedDocBytes { no_use_all := true } tree_demo_1 =
      mergedDocBytes { no_use_all := true } tree_demo_2 := by
  have hsame : SameTree tree_demo_1 tree_demo_2 := by
    refine ⟨rfl, rfl, ?_⟩
    exact List.Forall₂.cons ⟨rfl, rfl, by decide, by decide⟩ List.Forall₂.nil
  exact ⟨hsame,
    c2_merged_doc_deterministic { no_use_all := true } tree_demo_1 tree_demo_2
      rfl hsame⟩

end ComposePy
